import Mathlib

/-!
Verification of the resilient IP-geolocation lookup core of the dns-visualizer
repository, a shallow embedding of src/server/geo-service.js (class GeoService).

The embedding mirrors the JavaScript source: the insertion-ordered ES Map is
modelled as an ordered association list with JS Map semantics (set on an
existing key updates in place, set on a fresh key appends, delete removes,
keys().next() yields the first key); times are Int milliseconds as produced by
Date.now(); the asynchronous lookup promise is modelled both as a sequential
run-to-completion function (lookup) and as an event-step machine over the
pending-request registry (coStep) for the concurrency claims.
-/

namespace GeoViz

/-- Ordered association map with the semantics of a JavaScript Map:
iteration order is insertion order, set on an existing key keeps its
position, set on a fresh key appends at the end. -/
abbrev JsMap (α : Type) := List (String × α)

namespace JsMap

/-- Map.has -/
def hasKey (m : JsMap α) (k : String) : Bool :=
  m.any (fun p => p.1 == k)

/-- Map.get (undefined is none) -/
def getVal (m : JsMap α) (k : String) : Option α :=
  (m.find? (fun p => p.1 == k)).map Prod.snd

/-- Map.delete -/
def del (m : JsMap α) (k : String) : JsMap α :=
  m.filter (fun p => p.1 != k)

/-- Map.set: update in place when the key exists, append otherwise -/
def setVal (m : JsMap α) (k : String) (v : α) : JsMap α :=
  if hasKey m k then m.map (fun p => if p.1 == k then (k, v) else p)
  else m ++ [(k, v)]

/-- Map.keys().next().value: the first (oldest-inserted) key -/
def firstKey? (m : JsMap α) : Option String :=
  m.head?.map Prod.fst

end JsMap

/-- A JSON field that is expected to hold a number: either an actual finite
number, or anything else (missing, string, NaN) which fails the typeof and
isNaN checks of isValidCoordinate. -/
inductive JsonNum
  | num (q : ℚ)
  | notNum
deriving DecidableEq

/-- Body of an upstream ip-api response, fields=status,message,lat,lon,city,country. -/
structure ApiResponse where
  status : String
  message : String
  lat : JsonNum
  lon : JsonNum
  city : Option String
  country : Option String
deriving DecidableEq

/-- The immutable location value produced by a successful upstream call
(source: the result object built in GeoService.apiLookup). -/
structure LocationResult where
  lat : ℚ
  lng : ℚ
  city : String
  country : String
deriving DecidableEq

/-- GeoService.isValidCoordinate: both fields must be numbers (and not NaN)
within the valid latitude and longitude ranges. -/
def isValidCoordinate : JsonNum → JsonNum → Bool
  | .num la, .num lo =>
    decide (-90 ≤ la) && decide (la ≤ 90) && decide (-180 ≤ lo) && decide (lo ≤ 180)
  | _, _ => false

/-- Remove leading and trailing whitespace of a character list (the effect
of the JavaScript String.prototype.trim on the texts involved here). -/
def trimChars (cs : List Char) : List Char :=
  ((cs.dropWhile Char.isWhitespace).reverse.dropWhile Char.isWhitespace).reverse

/-- Characters removed by GeoService.sanitizeString (angle brackets, double
quote 34, apostrophe 39, ampersand). -/
def isStrippedChar (c : Char) : Bool :=
  c = '<' || c = '>' || c.toNat = 34 || c.toNat = 39 || c = '&'

/-- GeoService.sanitizeString: non-strings become empty; strings are trimmed,
stripped of angle brackets, quotes and ampersands, and truncated to 100 chars. -/
def sanitizeString : Option String → String
  | none => ""
  | some s => ((trimChars s.data).filter (fun c => !isStrippedChar c)).take 100 |>.asString

/-- A word character in the sense of the regex class backslash-w. -/
def isWordChar (c : Char) : Bool :=
  c.isAlphanum || c = '_'

/-- GeoService.sanitizeIp: trim, strip every character outside word chars,
dots, colons and square brackets; reject empty or overlong results. -/
def sanitizeIp (ip : String) : Option String :=
  let cleaned :=
    (trimChars ip.data).filter (fun c => isWordChar c || c = '.' || c = ':' || c = '[' || c = ']')
  if cleaned.length = 0 ∨ 45 < cleaned.length then none else some cleaned.asString

/-- GeoService.isValidInput: a non-empty string of at most 45 characters. -/
def isValidInput (ip : String) : Bool :=
  decide (0 < ip.data.length) && decide (ip.data.length ≤ 45)

/-- Value of a list of decimal digit characters. -/
def digitsVal (cs : List Char) : Nat :=
  cs.foldl (fun acc c => acc * 10 + (c.toNat - 48)) 0

/-- JavaScript parseInt(s, 10): skip leading whitespace, optional sign,
longest leading run of decimal digits; NaN (none) when no digit is found. -/
def jsParseInt (cs : List Char) : Option Int :=
  let signAndRest : Int × List Char :=
    match trimChars cs with
    | '-' :: r => (-1, r)
    | '+' :: r => (1, r)
    | r => (1, r)
  let digits := signAndRest.2.takeWhile Char.isDigit
  if digits.isEmpty then none else some (signAndRest.1 * (digitsVal digits : Int))

/-- Split a character list at every occurrence of the separator, keeping
empty segments, with the semantics of the JavaScript String.prototype.split
with a single-character separator. -/
def splitOnChar (sep : Char) : List Char → List (List Char)
  | [] => [[]]
  | c :: rest =>
    if c = sep then [] :: splitOnChar sep rest
    else
      match splitOnChar sep rest with
      | h :: t => (c :: h) :: t
      | [] => [[c]]

/-- Does the first character list start with the second. -/
def strStarts : List Char → List Char → Bool
  | _, [] => true
  | [], _ :: _ => false
  | c :: cs, d :: ds => c = d && strStarts cs ds

/-- Test on a parsed octet mirroring isNaN(o) or o lt 0 or o gt 255. -/
def badOctet : Option Int → Bool
  | none => true
  | some v => decide (v < 0) || decide (255 < v)

/-- The IPv4 private and reserved range predicate of GeoService.isPrivateIP,
over the first three parsed octets. -/
def ipv4PrivateRange (first second third : Int) : Bool :=
  first = 10 ||
  first = 127 ||
  (first = 172 && decide (16 ≤ second) && decide (second ≤ 31)) ||
  (first = 192 && second = 168) ||
  first = 0 ||
  (first = 169 && second = 254) ||
  first = 255 ||
  (first = 100 && decide (64 ≤ second) && decide (second ≤ 127)) ||
  (first = 192 && second = 0 && (third = 0 || third = 2)) ||
  (first = 198 && second = 18) ||
  (first = 198 && second = 51 && third = 100) ||
  (first = 203 && second = 0 && third = 113) ||
  decide (224 ≤ first)

/-- GeoService.isPrivateIP: classify private, reserved and malformed
addresses of both families; unknown formats count as private. -/
def isPrivateIP (ip : String) : Bool :=
  let cs := ip.data
  if cs.isEmpty then true
  else if cs.any (fun c => c = '.') then
    let parts := splitOnChar '.' cs
    if parts.length ≠ 4 then true
    else
      let octets := parts.map jsParseInt
      if octets.any badOctet then true
      else
        match octets with
        | [some first, some second, some third, _] => ipv4PrivateRange first second third
        | _ => true
  else if cs.any (fun c => c = ':') then
    let lower := cs.map Char.toLower
    strStarts lower ("fe80:").data ||
    strStarts lower ("fe80::").data ||
    strStarts lower ("fec0:").data ||
    strStarts lower ("fc00:").data ||
    strStarts lower ("fd00:").data ||
    decide (lower = ("::1").data) ||
    decide (lower = ("::").data) ||
    strStarts lower ("ff00:").data ||
    strStarts lower ("2001:db8:").data ||
    strStarts lower ("2001:10:").data ||
    strStarts lower ("2002:").data
  else true

/-- GeoService.addToCache: when at or above capacity, delete the first
(least-recently-touched) key, then set the new entry. -/
def addToCache (maxCacheSize : Nat) (cache : JsMap (Option LocationResult))
    (ip : String) (data : Option LocationResult) : JsMap (Option LocationResult) :=
  let cache :=
    if maxCacheSize ≤ cache.length then
      match JsMap.firstKey? cache with
      | some k => JsMap.del cache k
      | none => cache
    else cache
  JsMap.setVal cache ip data

/-- The cache-hit path of GeoService.lookup, lines 62-72: read the value,
delete the entry and re-set it so that it moves to the most-recently-used
(last) position. -/
def cacheTouch (cache : JsMap (Option LocationResult)) (ip : String) :
    JsMap (Option LocationResult) :=
  match JsMap.getVal cache ip with
  | some v => JsMap.setVal (JsMap.del cache ip) ip v
  | none => cache

/-- A cache operation issued by the orchestrator: a read that hits (touch) or
an insertion through addToCache. -/
inductive CacheOp
  | touch (ip : String)
  | insert (ip : String) (v : Option LocationResult)

/-- Apply one cache operation; a touch on a missing key is the identity,
which is what the miss path of lookup does to the cache. -/
def applyCacheOp (maxCacheSize : Nat) (cache : JsMap (Option LocationResult)) :
    CacheOp → JsMap (Option LocationResult)
  | .touch ip => cacheTouch cache ip
  | .insert ip v => addToCache maxCacheSize cache ip v

/-- The three states of the circuit breaker. -/
inductive BreakerState
  | CLOSED
  | OPEN
  | HALF_OPEN
deriving DecidableEq

/-- The circuitBreaker record of the GeoService constructor. -/
structure CircuitBreaker where
  failures : Nat
  maxFailures : Nat
  resetTimeout : Int
  state : BreakerState
  lastFailureTime : Option Int
deriving DecidableEq

/-- The breaker as initialised in the constructor. -/
def initialCircuitBreaker : CircuitBreaker :=
  { failures := 0, maxFailures := 5, resetTimeout := 30000,
    state := .CLOSED, lastFailureTime := none }

/-- The stats record of the GeoService constructor. -/
structure GeoStats where
  totalLookups : Nat
  cacheHits : Nat
  cacheMisses : Nat
  apiCalls : Nat
  apiFailures : Nat
  rateLimitHits : Nat
  circuitBreakerTrips : Nat
deriving DecidableEq

/-- All stats counters start at zero. -/
def initialGeoStats : GeoStats :=
  { totalLookups := 0, cacheHits := 0, cacheMisses := 0, apiCalls := 0,
    apiFailures := 0, rateLimitHits := 0, circuitBreakerTrips := 0 }

/-- GeoService.handleApiFailure: count the failure, stamp its time, and trip
the breaker to OPEN once the consecutive-failure counter reaches
maxFailures (counting a trip only on the CLOSED or HALF_OPEN to OPEN edge). -/
def handleApiFailure (cb : CircuitBreaker) (stats : GeoStats) (now : Int) :
    CircuitBreaker × GeoStats :=
  let stats := { stats with apiFailures := stats.apiFailures + 1 }
  let cb := { cb with failures := cb.failures + 1, lastFailureTime := some now }
  if cb.maxFailures ≤ cb.failures then
    let stats :=
      if cb.state ≠ .OPEN then
        { stats with circuitBreakerTrips := stats.circuitBreakerTrips + 1 }
      else stats
    ({ cb with state := .OPEN }, stats)
  else (cb, stats)

/-- The breaker gate of GeoService.lookup, lines 88-98: while OPEN, deny
until strictly more than resetTimeout ms have passed since the last failure,
in which case move to HALF_OPEN and allow. Any other state allows. -/
def breakerAllow (cb : CircuitBreaker) (now : Int) : Bool × CircuitBreaker :=
  if cb.state = .OPEN then
    if cb.resetTimeout < now - cb.lastFailureTime.getD 0 then
      (true, { cb with state := .HALF_OPEN })
    else (false, cb)
  else (true, cb)

/-- The success path of the lookup promise, lines 104-110: reset the
consecutive-failure counter and close the breaker when HALF_OPEN. -/
def breakerOnSuccess (cb : CircuitBreaker) : CircuitBreaker :=
  let cb := { cb with failures := 0 }
  if cb.state = .HALF_OPEN then { cb with state := .CLOSED } else cb

/-- The sliding-window rate limiter state of the GeoService constructor. -/
structure RateLimiter where
  requestQueue : List Int
  lastRequestTime : Int
  minRequestDelay : Int
  requestWindow : Int
  maxRequestsPerMinute : Nat
deriving DecidableEq

/-- The limiter as initialised in the constructor with default options. -/
def initialRateLimiter : RateLimiter :=
  { requestQueue := [], lastRequestTime := 0, minRequestDelay := 4000,
    requestWindow := 60000, maxRequestsPerMinute := 15 }

/-- Outcome of one admission attempt: admitted after a synchronous wait of
waited ms (0 when no deficit), rejected by the minimum-spacing gate, or
rejected by the window cap. -/
inductive RateOutcome
  | admitted (waited : Int)
  | rejectedMinDelay
  | rejectedWindow
deriving DecidableEq

/-- GeoService.checkRateLimit. now is Date.now() on entry; now2 is the
Date.now() read on admission (after the optional synchronous wait). A throw
in the source is a rejected outcome here; the rateLimitHits counter is
threaded through explicitly. -/
def checkRateLimit (rl : RateLimiter) (hits : Nat) (now now2 : Int) :
    RateOutcome × RateLimiter × Nat :=
  let timeSinceLastRequest := now - rl.lastRequestTime
  let waited :=
    if timeSinceLastRequest < rl.minRequestDelay then rl.minRequestDelay - timeSinceLastRequest
    else 0
  if timeSinceLastRequest < rl.minRequestDelay ∧ 2000 < rl.minRequestDelay - timeSinceLastRequest then
    (.rejectedMinDelay, rl, hits)
  else
    let windowStart := now - rl.requestWindow
    let queue := rl.requestQueue.filter (fun t => windowStart < t)
    if rl.maxRequestsPerMinute ≤ queue.length then
      let hits := hits + 1
      match queue.head? with
      | some oldestRequest =>
        if 0 < rl.requestWindow - (now - oldestRequest) then
          (.rejectedWindow, { rl with requestQueue := queue }, hits)
        else
          (.admitted waited,
           { rl with requestQueue := queue ++ [now2], lastRequestTime := now2 }, hits)
      | none =>
        (.admitted waited,
         { rl with requestQueue := queue ++ [now2], lastRequestTime := now2 }, hits)
    else
      (.admitted waited,
       { rl with requestQueue := queue ++ [now2], lastRequestTime := now2 }, hits)

/-- Environment of one upstream fetch attempt: the HTTP response was not ok,
the AbortController fired, the fetch itself failed, or a JSON body arrived. -/
inductive Upstream
  | httpErrorResp (code : Nat)
  | timeoutAbort
  | fetchFailure
  | body (resp : ApiResponse)

/-- The typed failures thrown out of GeoService.apiLookup: the two rate-limit
throws of checkRateLimit, the HTTP-status throw, the timeout throw, and a
generic network failure. -/
inductive ApiError
  | rateMinDelay
  | rateWindow
  | httpError (code : Nat)
  | timeoutError
  | fetchFailed
deriving DecidableEq

/-- Mirrors error.message.includes of the string Rate limit in
apiLookupWithRetry: true exactly for the two checkRateLimit throws. -/
def errorMessageHasRateLimit : ApiError → Bool
  | .rateMinDelay => true
  | .rateWindow => true
  | _ => false

/-- Numeric value of a JSON number field, as parseFloat reads it. -/
def jsonNumVal : JsonNum → ℚ
  | .num q => q
  | .notNum => 0

/-- The result object built by apiLookup from an accepted body; empty
sanitized strings fall back to Unknown. -/
def mkLocationResult (resp : ApiResponse) : LocationResult :=
  { lat := jsonNumVal resp.lat
    lng := jsonNumVal resp.lon
    city := if sanitizeString resp.city = "" then "Unknown" else sanitizeString resp.city
    country := if sanitizeString resp.country = "" then "Unknown" else sanitizeString resp.country }

/-- GeoService.apiLookup: pass the rate limiter, count the upstream call,
then translate the fetch outcome. A status fail body or invalid coordinates
yield a non-thrown null (negative) result. Returns the result or error
together with the threaded limiter state, rateLimitHits and apiCalls. -/
def apiLookup (rl : RateLimiter) (hits apiCalls : Nat) (now now2 : Int) (ev : Upstream) :
    Except ApiError (Option LocationResult) × RateLimiter × Nat × Nat :=
  match checkRateLimit rl hits now now2 with
  | (.rejectedMinDelay, rl, hits) => (.error .rateMinDelay, rl, hits, apiCalls)
  | (.rejectedWindow, rl, hits) => (.error .rateWindow, rl, hits, apiCalls)
  | (.admitted _, rl, hits) =>
    let apiCalls := apiCalls + 1
    match ev with
    | .httpErrorResp code => (.error (.httpError code), rl, hits, apiCalls)
    | .timeoutAbort => (.error .timeoutError, rl, hits, apiCalls)
    | .fetchFailure => (.error .fetchFailed, rl, hits, apiCalls)
    | .body resp =>
      if resp.status = "fail" then (.ok none, rl, hits, apiCalls)
      else if isValidCoordinate resp.lat resp.lon = false then (.ok none, rl, hits, apiCalls)
      else (.ok (some (mkLocationResult resp)), rl, hits, apiCalls)

/-- Per-lookup environment: the pair of Date.now() reads inside
checkRateLimit for each attempt number, the fetch outcome of each attempt,
and the Date.now() read inside handleApiFailure. -/
structure LookupEnv where
  times : Nat → Int × Int
  events : Nat → Upstream
  failNow : Int

/-- The recursion of GeoService.apiLookupWithRetry, driven structurally by
the fuel maxRetries minus attempt (supplied by apiLookupWithRetry below, and
positive whenever the attempt-below-maxRetries retry guard holds, so the
zero-fuel fallback is never reached): attempt numbering starts at 1;
rate-limit errors and an OPEN breaker turn the error into a null result;
otherwise retry while attempt is strictly below maxRetries, sleeping
retryDelay times 2 to the power attempt minus 1 before the next attempt.
Also returns the list of backoff delays slept. -/
def retryAux (env : LookupEnv) (maxRetries retryDelay : Nat) (cbState : BreakerState) :
    Nat → RateLimiter → Nat → Nat → Nat →
    Except ApiError (Option LocationResult) × RateLimiter × Nat × Nat × List Nat
  | fuel, rl, hits, apiCalls, attempt =>
    let t := env.times attempt
    match apiLookup rl hits apiCalls t.1 t.2 (env.events attempt) with
    | (.ok r, rl, hits, apiCalls) => (.ok r, rl, hits, apiCalls, [])
    | (.error e, rl, hits, apiCalls) =>
      if errorMessageHasRateLimit e || cbState = .OPEN then
        (.ok none, rl, hits, apiCalls, [])
      else if attempt < maxRetries then
        match fuel with
        | f + 1 =>
          let delay := retryDelay * 2 ^ (attempt - 1)
          let r := retryAux env maxRetries retryDelay cbState f rl hits apiCalls (attempt + 1)
          (r.1, r.2.1, r.2.2.1, r.2.2.2.1, delay :: r.2.2.2.2)
        | 0 => (.error e, rl, hits, apiCalls, [])
      else (.error e, rl, hits, apiCalls, [])

/-- GeoService.apiLookupWithRetry at a given starting attempt number. -/
def apiLookupWithRetry (env : LookupEnv) (maxRetries retryDelay : Nat)
    (cbState : BreakerState) (rl : RateLimiter) (hits apiCalls : Nat) (attempt : Nat) :
    Except ApiError (Option LocationResult) × RateLimiter × Nat × Nat × List Nat :=
  retryAux env maxRetries retryDelay cbState (maxRetries - attempt) rl hits apiCalls attempt

/-- The mutable state owned by one GeoService instance, as set up by the
constructor (configuration fields that no claim varies are kept at their
validated defaults inside initialGeoState below). -/
structure GeoState where
  cache : JsMap (Option LocationResult)
  maxCacheSize : Nat
  pendingRequests : List String
  circuitBreaker : CircuitBreaker
  rateLimiter : RateLimiter
  maxRetries : Nat
  retryDelay : Nat
  stats : GeoStats
deriving DecidableEq

/-- A fresh service instance with default options. -/
def initialGeoState : GeoState :=
  { cache := [], maxCacheSize := 10000, pendingRequests := [],
    circuitBreaker := initialCircuitBreaker, rateLimiter := initialRateLimiter,
    maxRetries := 2, retryDelay := 1000, stats := initialGeoStats }

/-- What a single lookup call resolves to: a value (null is none), or the
promise of an already-pending request for the same IP. -/
inductive LookupOutcome
  | value (r : Option LocationResult)
  | joinedPending
deriving DecidableEq

/-- GeoService.lookup run to completion as a sequential function: validate,
sanitize, cache check with LRU touch, pending-request join, private-address
short-circuit, breaker gate (caching null on denial), then the retry
pipeline whose settled result updates the breaker and is written to the
cache. The pending placeholder is created and removed within the same run,
leaving pendingRequests unchanged; the interleaved behaviour of the
placeholder is modelled separately by coStep. -/
def lookup (g : GeoState) (ip : String) (now : Int) (env : LookupEnv) :
    LookupOutcome × GeoState :=
  let g := { g with stats := { g.stats with totalLookups := g.stats.totalLookups + 1 } }
  if isValidInput ip = false then (.value none, g)
  else
    match sanitizeIp ip with
    | none => (.value none, g)
    | some sanitizedIp =>
      match JsMap.getVal g.cache sanitizedIp with
      | some value =>
        let g := { g with
          stats := { g.stats with cacheHits := g.stats.cacheHits + 1 },
          cache := cacheTouch g.cache sanitizedIp }
        (.value value, g)
      | none =>
        let g := { g with stats := { g.stats with cacheMisses := g.stats.cacheMisses + 1 } }
        if sanitizedIp ∈ g.pendingRequests then (.joinedPending, g)
        else if isPrivateIP sanitizedIp then (.value none, g)
        else
          let gate := breakerAllow g.circuitBreaker now
          let g := { g with circuitBreaker := gate.2 }
          if gate.1 = false then
            let g := { g with cache := addToCache g.maxCacheSize g.cache sanitizedIp none }
            (.value none, g)
          else
            let run := apiLookupWithRetry env g.maxRetries g.retryDelay
              g.circuitBreaker.state g.rateLimiter g.stats.rateLimitHits g.stats.apiCalls 1
            let g := { g with
              rateLimiter := run.2.1,
              stats := { g.stats with rateLimitHits := run.2.2.1, apiCalls := run.2.2.2.1 } }
            match run.1 with
            | .ok result =>
              let g :=
                match result with
                | some _ => { g with circuitBreaker := breakerOnSuccess g.circuitBreaker }
                | none => g
              let g := { g with cache := addToCache g.maxCacheSize g.cache sanitizedIp result }
              (.value result, g)
            | .error _ =>
              let upd := handleApiFailure g.circuitBreaker g.stats env.failNow
              let g := { g with circuitBreaker := upd.1, stats := upd.2 }
              let g := { g with cache := addToCache g.maxCacheSize g.cache sanitizedIp none }
              (.value none, g)

/-- What one arriving caller gets back from the coalescer: an immediately
resolved value, or attachment to the shared promise with identity pid. -/
inductive ArriveOutcome
  | immediate (r : Option LocationResult)
  | joined (pid : Nat)
deriving DecidableEq

/-- State of the service under interleaved lookups: the pending-request
registry maps each in-flight IP to the identity of its shared promise;
invocations logs each started workFn (upstream pipeline) run, outcomes logs
what each caller received, resolved logs each settled promise. -/
structure CoState where
  cache : JsMap (Option LocationResult)
  maxCacheSize : Nat
  pending : JsMap Nat
  nextId : Nat
  circuitBreaker : CircuitBreaker
  stats : GeoStats
  invocations : List (String × Nat)
  outcomes : List (Nat × ArriveOutcome)
  resolved : List (Nat × Option LocationResult)
deriving DecidableEq

/-- An interleaving event: a caller enters lookup, or the in-flight promise
for an IP settles with the given pipeline result. -/
inductive CoEvent
  | arrive (caller : Nat) (ip : String) (now : Int)
  | settle (ip : String) (res : Except ApiError (Option LocationResult)) (now : Int)

/-- The value a settled pipeline delivers to every waiter: the resolved
result, or null when the work threw (the catch branch of the promise). -/
def deliveredOf : Except ApiError (Option LocationResult) → Option LocationResult
  | .ok r => r
  | .error _ => none

/-- Small-step semantics of GeoService.lookup around the pendingRequests
registry (source lines 50-128). An arrive runs the synchronous part of
lookup up to either joining the pending promise or creating it (invoking the
work exactly once); a settle runs lines 104-124 of the promise body: update
the breaker, write the cache, delete the placeholder, then resolve. -/
def coStep (st : CoState) : CoEvent → CoState
  | .arrive caller ip now =>
    let st := { st with stats := { st.stats with totalLookups := st.stats.totalLookups + 1 } }
    if isValidInput ip = false then
      { st with outcomes := st.outcomes ++ [(caller, .immediate none)] }
    else
      match sanitizeIp ip with
      | none => { st with outcomes := st.outcomes ++ [(caller, .immediate none)] }
      | some s =>
        match JsMap.getVal st.cache s with
        | some v =>
          { st with
            stats := { st.stats with cacheHits := st.stats.cacheHits + 1 },
            cache := cacheTouch st.cache s,
            outcomes := st.outcomes ++ [(caller, .immediate v)] }
        | none =>
          let st := { st with stats := { st.stats with cacheMisses := st.stats.cacheMisses + 1 } }
          match JsMap.getVal st.pending s with
          | some pid => { st with outcomes := st.outcomes ++ [(caller, .joined pid)] }
          | none =>
            if isPrivateIP s then
              { st with outcomes := st.outcomes ++ [(caller, .immediate none)] }
            else
              let gate := breakerAllow st.circuitBreaker now
              if gate.1 then
                { st with
                  circuitBreaker := gate.2,
                  pending := JsMap.setVal st.pending s st.nextId,
                  invocations := st.invocations ++ [(s, st.nextId)],
                  outcomes := st.outcomes ++ [(caller, .joined st.nextId)],
                  nextId := st.nextId + 1 }
              else
                { st with
                  circuitBreaker := gate.2,
                  cache := addToCache st.maxCacheSize st.cache s none,
                  outcomes := st.outcomes ++ [(caller, .immediate none)] }
  | .settle ip res now =>
    match JsMap.getVal st.pending ip with
    | none => st
    | some pid =>
      match res with
      | .ok r =>
        let cb :=
          match r with
          | some _ => breakerOnSuccess st.circuitBreaker
          | none => st.circuitBreaker
        { st with
          circuitBreaker := cb,
          cache := addToCache st.maxCacheSize st.cache ip r,
          pending := JsMap.del st.pending ip,
          resolved := st.resolved ++ [(pid, r)] }
      | .error _ =>
        let upd := handleApiFailure st.circuitBreaker st.stats now
        { st with
          circuitBreaker := upd.1,
          stats := upd.2,
          cache := addToCache st.maxCacheSize st.cache ip none,
          pending := JsMap.del st.pending ip,
          resolved := st.resolved ++ [(pid, none)] }

/-! ## Basic lemmas about the JsMap operations -/

theorem JsMap.hasKey_eq_false_iff (m : JsMap α) (k : String) :
    JsMap.hasKey m k = false ↔ ∀ p ∈ m, p.1 ≠ k := by
  simp [JsMap.hasKey]

theorem JsMap.find?_eq_none_of_not_hasKey (m : JsMap α) (k : String)
    (h : JsMap.hasKey m k = false) : m.find? (fun p => p.1 == k) = none := by
  rw [List.find?_eq_none]
  intro p hp
  simpa using (JsMap.hasKey_eq_false_iff m k).mp h p hp

theorem JsMap.getVal_eq_none_of_not_hasKey (m : JsMap α) (k : String)
    (h : JsMap.hasKey m k = false) : JsMap.getVal m k = none := by
  simp [JsMap.getVal, JsMap.find?_eq_none_of_not_hasKey m k h]

theorem JsMap.hasKey_of_getVal_eq_some (m : JsMap α) (k : String) (v : α)
    (h : JsMap.getVal m k = some v) : JsMap.hasKey m k = true := by
  by_contra hf
  rw [JsMap.getVal_eq_none_of_not_hasKey m k (by simpa using hf)] at h
  exact Option.noConfusion h

theorem JsMap.setVal_of_not_hasKey (m : JsMap α) (k : String) (v : α)
    (h : JsMap.hasKey m k = false) : JsMap.setVal m k v = m ++ [(k, v)] := by
  simp [JsMap.setVal, h]

theorem JsMap.find?_map_update (m : JsMap α) (k : String) (v : α)
    (h : JsMap.hasKey m k = true) :
    (m.map (fun p => if p.1 == k then (k, v) else p)).find? (fun p => p.1 == k) = some (k, v) := by
  induction m with
  | nil => simp [JsMap.hasKey] at h
  | cons p t ih =>
    by_cases hp : p.1 = k
    · rw [List.map_cons, if_pos (by simpa using hp)]
      exact List.find?_cons_of_pos _ (by simp)
    · have ht : JsMap.hasKey t k = true := by
        simp only [JsMap.hasKey, List.any_cons, Bool.or_eq_true, beq_iff_eq] at h
        rcases h with h | h
        · exact absurd h hp
        · simpa [JsMap.hasKey] using h
      rw [List.map_cons, if_neg (by simpa using hp),
        List.find?_cons_of_neg _ (by simpa using hp)]
      exact ih ht

theorem JsMap.getVal_setVal_self (m : JsMap α) (k : String) (v : α) :
    JsMap.getVal (JsMap.setVal m k v) k = some v := by
  by_cases h : JsMap.hasKey m k
  · simp only [JsMap.setVal, h, if_true, JsMap.getVal, JsMap.find?_map_update m k v h]
    rfl
  · rw [JsMap.setVal_of_not_hasKey m k v (by simpa using h)]
    simp only [JsMap.getVal, List.find?_append,
      JsMap.find?_eq_none_of_not_hasKey m k (by simpa using h)]
    simp [List.find?]

theorem JsMap.getVal_del_self (m : JsMap α) (k : String) :
    JsMap.getVal (JsMap.del m k) k = none := by
  have hfind : (JsMap.del m k).find? (fun p => p.1 == k) = none := by
    rw [List.find?_eq_none]
    intro p hp
    have := (List.mem_filter.mp hp).2
    simpa using this
  simp [JsMap.getVal, hfind]

theorem JsMap.hasKey_del_self (m : JsMap α) (k : String) :
    JsMap.hasKey (JsMap.del m k) k = false := by
  rw [JsMap.hasKey_eq_false_iff]
  intro p hp
  have := (List.mem_filter.mp hp).2
  simpa using this

theorem JsMap.length_del_le (m : JsMap α) (k : String) :
    (JsMap.del m k).length ≤ m.length :=
  List.length_filter_le _ m

theorem JsMap.length_del_lt_of_hasKey (m : JsMap α) (k : String)
    (h : JsMap.hasKey m k = true) : (JsMap.del m k).length < m.length := by
  simp only [JsMap.hasKey, List.any_eq_true] at h
  obtain ⟨p, hp, hpk⟩ := h
  apply List.length_filter_lt_length_iff_exists.mpr
  exact ⟨p, hp, by simpa using hpk⟩

theorem JsMap.length_setVal_le (m : JsMap α) (k : String) (v : α) :
    (JsMap.setVal m k v).length ≤ m.length + 1 := by
  by_cases h : JsMap.hasKey m k
  · simp [JsMap.setVal, h]
  · simp [JsMap.setVal, h]

/-! ## Claim C1: the circuit-breaker state machine -/

/-- Invariant of every breaker state reachable through the sequential
operations: a non-CLOSED breaker has accumulated at least maxFailures
consecutive failures. -/
def BreakerInv (cb : CircuitBreaker) : Prop :=
  (cb.state = .OPEN ∨ cb.state = .HALF_OPEN) → cb.maxFailures ≤ cb.failures

/-- Closed form of the breaker component of handleApiFailure. -/
theorem handleApiFailure_fst (cb : CircuitBreaker) (stats : GeoStats) (now : Int) :
    (handleApiFailure cb stats now).1 =
      if cb.maxFailures ≤ cb.failures + 1 then
        { cb with failures := cb.failures + 1, lastFailureTime := some now, state := .OPEN }
      else { cb with failures := cb.failures + 1, lastFailureTime := some now } := by
  by_cases h : cb.maxFailures ≤ cb.failures + 1 <;> simp [handleApiFailure, h]

/-- Closed form of breakerOnSuccess. -/
theorem breakerOnSuccess_eq (cb : CircuitBreaker) :
    breakerOnSuccess cb =
      { cb with failures := 0,
                state := if cb.state = .HALF_OPEN then .CLOSED else cb.state } := by
  by_cases h : cb.state = .HALF_OPEN <;> simp [breakerOnSuccess, h]

/-- While the breaker is OPEN and the reset timeout has not elapsed, a
lookup performs zero upstream invocations: stats.apiCalls is unchanged. -/
theorem lookup_open_no_upstream (g : GeoState) (ip : String) (now : Int) (env : LookupEnv)
    (hOpen : g.circuitBreaker.state = .OPEN)
    (hNe : now - g.circuitBreaker.lastFailureTime.getD 0 ≤ g.circuitBreaker.resetTimeout) :
    (lookup g ip now env).2.stats.apiCalls = g.stats.apiCalls := by
  have hnotlt : ¬ (g.circuitBreaker.resetTimeout < now - g.circuitBreaker.lastFailureTime.getD 0) := by
    omega
  have hba : breakerAllow g.circuitBreaker now = (false, g.circuitBreaker) := by
    simp [breakerAllow, hOpen, hnotlt]
  simp only [lookup, hba]
  split
  · rfl
  · split
    · rfl
    · split
      · rfl
      · split
        · rfl
        · split
          · rfl
          · rfl

/-- Claim C1: the breaker follows the specified state machine. Starting
CLOSED with zero failures, each upstream failure increments the
consecutive-failure counter and records its time, and reaching maxFailures
(default 5) moves the state to OPEN; while OPEN and within resetTimeout
(default 30000 ms) of the last failure every lookup is short-circuited with
zero upstream invocations; the first permission check after the timeout has
elapsed transitions to HALF_OPEN and allows the call; a success then closes
the breaker with the failure counter reset to 0, and a failure (from a
HALF_OPEN state, which always carries at least maxFailures failures, as the
preserved invariant BreakerInv states) transitions back to OPEN. -/
theorem claim_C1_breaker_state_machine :
    (initialCircuitBreaker.state = .CLOSED ∧ initialCircuitBreaker.failures = 0 ∧
      initialCircuitBreaker.maxFailures = 5 ∧ initialCircuitBreaker.resetTimeout = 30000) ∧
    (∀ cb stats now,
      (handleApiFailure cb stats now).1.failures = cb.failures + 1 ∧
      (handleApiFailure cb stats now).1.lastFailureTime = some now ∧
      (cb.maxFailures ≤ cb.failures + 1 → (handleApiFailure cb stats now).1.state = .OPEN) ∧
      (cb.failures + 1 < cb.maxFailures → (handleApiFailure cb stats now).1.state = cb.state)) ∧
    (∀ cb now, cb.state = .OPEN →
      (now - cb.lastFailureTime.getD 0 ≤ cb.resetTimeout → breakerAllow cb now = (false, cb)) ∧
      (cb.resetTimeout < now - cb.lastFailureTime.getD 0 →
        breakerAllow cb now = (true, { cb with state := .HALF_OPEN }))) ∧
    (∀ g ip now env, g.circuitBreaker.state = .OPEN →
      now - g.circuitBreaker.lastFailureTime.getD 0 ≤ g.circuitBreaker.resetTimeout →
      (lookup g ip now env).2.stats.apiCalls = g.stats.apiCalls) ∧
    (∀ cb, cb.state = .HALF_OPEN →
      (breakerOnSuccess cb).state = .CLOSED ∧ (breakerOnSuccess cb).failures = 0) ∧
    (∀ cb stats now, BreakerInv cb → cb.state = .HALF_OPEN →
      (handleApiFailure cb stats now).1.state = .OPEN) ∧
    (BreakerInv initialCircuitBreaker ∧
      (∀ cb stats now, BreakerInv cb → BreakerInv (handleApiFailure cb stats now).1) ∧
      (∀ cb now, BreakerInv cb → BreakerInv (breakerAllow cb now).2) ∧
      (∀ cb, cb.state ≠ .OPEN → BreakerInv (breakerOnSuccess cb))) := by
  refine ⟨by decide, ?_, ?_, ?_, ?_, ?_, ?_, ?_, ?_, ?_⟩
  · intro cb stats now
    rw [handleApiFailure_fst]
    by_cases h : cb.maxFailures ≤ cb.failures + 1 <;> simp [h]
  · intro cb now hOpen
    constructor
    · intro h
      have hnotlt : ¬ (cb.resetTimeout < now - cb.lastFailureTime.getD 0) := by omega
      simp [breakerAllow, hOpen, hnotlt]
    · intro h
      simp [breakerAllow, hOpen, h]
  · exact fun g ip now env h1 h2 => lookup_open_no_upstream g ip now env h1 h2
  · intro cb h
    rw [breakerOnSuccess_eq]
    simp [h]
  · intro cb stats now hInv hHalf
    have hmax : cb.maxFailures ≤ cb.failures := hInv (Or.inr hHalf)
    rw [handleApiFailure_fst, if_pos (by omega)]
  · exact fun h => by simp [initialCircuitBreaker] at h
  · intro cb stats now hInv
    rw [BreakerInv, handleApiFailure_fst]
    by_cases h : cb.maxFailures ≤ cb.failures + 1
    · rw [if_pos h]
      intro _
      simpa using h
    · rw [if_neg h]
      intro hcase
      have := hInv (by simpa using hcase)
      simpa using Nat.le_succ_of_le this
  · intro cb now hInv
    rw [BreakerInv]
    simp only [breakerAllow]
    by_cases hOpen : cb.state = .OPEN
    · rw [if_pos hOpen]
      by_cases hlt : cb.resetTimeout < now - cb.lastFailureTime.getD 0
      · rw [if_pos hlt]
        intro _
        simpa using hInv (Or.inl hOpen)
      · rw [if_neg hlt]
        exact hInv
    · rw [if_neg hOpen]
      exact hInv
  · intro cb hne
    rw [BreakerInv, breakerOnSuccess_eq]
    by_cases h : cb.state = .HALF_OPEN
    · simp [h]
    · simp only [if_neg h]
      intro hcase
      rcases hcase with hc | hc
      · exact absurd hc hne
      · exact absurd hc h

/-- An OPEN breaker that tripped at time 1000 after five failures. -/
def cbOpen5 : CircuitBreaker :=
  { failures := 5, maxFailures := 5, resetTimeout := 30000,
    state := .OPEN, lastFailureTime := some 1000 }

/-- A HALF_OPEN breaker carrying its five accumulated failures. -/
def cbHalf5 : CircuitBreaker :=
  { failures := 5, maxFailures := 5, resetTimeout := 30000,
    state := .HALF_OPEN, lastFailureTime := some 1000 }

/-- A fresh service whose breaker just tripped OPEN. -/
def gOpen : GeoState := { initialGeoState with circuitBreaker := cbOpen5 }

/-- An environment whose upstream times out on every attempt. -/
def envTimeout : LookupEnv :=
  { times := fun k => (1000000 * k, 1000000 * k), events := fun _ => .timeoutAbort,
    failNow := 7777 }

/-- Witness for claim C1 at concrete inputs: the OPEN breaker within the
reset window denies and a lookup performs no upstream call; the HALF_OPEN
breaker reopens on failure and closes with zero failures on success. -/
theorem claim_C1_breaker_state_machine_witness :
    breakerAllow cbOpen5 2000 = (false, cbOpen5) ∧
    (lookup gOpen "8.8.8.8" 2000 envTimeout).2.stats.apiCalls = gOpen.stats.apiCalls ∧
    breakerAllow cbOpen5 40000 = (true, cbHalf5) ∧
    (breakerOnSuccess cbHalf5).state = .CLOSED ∧ (breakerOnSuccess cbHalf5).failures = 0 ∧
    (handleApiFailure cbHalf5 initialGeoStats 50000).1.state = .OPEN := by
  refine ⟨?_, ?_, ?_, ?_, ?_, ?_⟩
  · exact (claim_C1_breaker_state_machine.2.2.1 cbOpen5 2000 (by decide)).1 (by decide)
  · exact claim_C1_breaker_state_machine.2.2.2.1 gOpen "8.8.8.8" 2000 envTimeout
      (by decide) (by decide)
  · exact (claim_C1_breaker_state_machine.2.2.1 cbOpen5 40000 (by decide)).2 (by decide)
  · exact (claim_C1_breaker_state_machine.2.2.2.2.1 cbHalf5 (by decide)).1
  · exact (claim_C1_breaker_state_machine.2.2.2.2.1 cbHalf5 (by decide)).2
  · exact claim_C1_breaker_state_machine.2.2.2.2.2.1 cbHalf5 initialGeoStats 50000
      (fun _ => by decide) (by decide)

/-! ## Claim C8: HALF_OPEN trial calls -/

/-- A service state with a HALF_OPEN breaker and nothing cached or pending,
for the interleaving model. -/
def coHalf : CoState where
  cache := []
  maxCacheSize := 10000
  pending := []
  nextId := 0
  circuitBreaker := cbHalf5
  stats := initialGeoStats
  invocations := []
  outcomes := []
  resolved := []

/-- One lookup for 8.8.8.8 arrives while the breaker is HALF_OPEN. -/
def coHalf1 : CoState := coStep coHalf (.arrive 0 "8.8.8.8" 2000)

/-- Before the first trial settles, a second lookup for 9.9.9.9 arrives. -/
def coHalf2 : CoState := coStep coHalf1 (.arrive 1 "9.9.9.9" 2001)

/-- Counterexample to claim C8 as stated: while the breaker is HALF_OPEN,
two lookups for distinct IPs arriving before any trial settles (resolved
stays empty) both start an upstream pipeline invocation, and the breaker is
still HALF_OPEN, so more lookups would be admitted as well; the code does
not restrict HALF_OPEN to exactly one trial call. -/
theorem claim_C8_counterexample :
    coHalf2.invocations = [("8.8.8.8", 0), ("9.9.9.9", 1)] ∧
    coHalf2.resolved = [] ∧
    coHalf2.circuitBreaker.state = .HALF_OPEN := by decide

/-- Claim C8 amended: while HALF_OPEN the breaker permission check admits
every lookup and leaves the state HALF_OPEN (so nothing limits the number
of concurrent trial calls for distinct IPs); the state leaves HALF_OPEN
only when a trial settles, to CLOSED on success and back to OPEN on
failure. -/
theorem claim_C8_half_open_behaviour :
    (∀ cb now, cb.state = .HALF_OPEN → breakerAllow cb now = (true, cb)) ∧
    (∀ cb, cb.state = .HALF_OPEN → (breakerOnSuccess cb).state = .CLOSED) ∧
    (∀ cb stats now, cb.state = .HALF_OPEN → cb.maxFailures ≤ cb.failures →
      (handleApiFailure cb stats now).1.state = .OPEN) := by
  refine ⟨?_, ?_, ?_⟩
  · intro cb now h
    have : cb.state ≠ .OPEN := by rw [h]; exact fun x => BreakerState.noConfusion x
    simp [breakerAllow, this]
  · intro cb h
    rw [breakerOnSuccess_eq]
    simp [h]
  · intro cb stats now _ hmax
    rw [handleApiFailure_fst, if_pos (by omega)]

/-- Witness for the amended claim C8 at the concrete HALF_OPEN breaker. -/
theorem claim_C8_half_open_behaviour_witness :
    breakerAllow cbHalf5 2000 = (true, cbHalf5) ∧
    (breakerOnSuccess cbHalf5).state = .CLOSED ∧
    (handleApiFailure cbHalf5 initialGeoStats 3000).1.state = .OPEN := by
  refine ⟨?_, ?_, ?_⟩
  · exact claim_C8_half_open_behaviour.1 cbHalf5 2000 (by decide)
  · exact claim_C8_half_open_behaviour.2.1 cbHalf5 (by decide)
  · exact claim_C8_half_open_behaviour.2.2 cbHalf5 initialGeoStats 3000 (by decide) (by decide)

/-! ## Claim C4: the two rate-limiter gates -/

/-- A spacing deficit above 2000 ms rejects outright, leaving the limiter
state and the rejection counter untouched. -/
theorem checkRateLimit_minDelay_reject (rl : RateLimiter) (hits : Nat) (now now2 : Int)
    (h1 : now - rl.lastRequestTime < rl.minRequestDelay)
    (h2 : 2000 < rl.minRequestDelay - (now - rl.lastRequestTime)) :
    checkRateLimit rl hits now now2 = (.rejectedMinDelay, rl, hits) := by
  simp only [checkRateLimit]
  rw [if_pos ⟨h1, h2⟩]

/-- A deficit of at most 2000 ms never produces a spacing rejection. -/
theorem checkRateLimit_small_deficit_not_reject (rl : RateLimiter) (hits : Nat)
    (now now2 : Int)
    (h1 : now - rl.lastRequestTime < rl.minRequestDelay)
    (h2 : rl.minRequestDelay - (now - rl.lastRequestTime) ≤ 2000) :
    (checkRateLimit rl hits now now2).1 ≠ .rejectedMinDelay := by
  simp only [checkRateLimit]
  rw [if_neg (by omega)]
  split <;> (try split) <;> (try split) <;> simp

/-- Past the spacing gate, a purged window already holding the cap rejects,
stores the purged queue and increments the rejection counter. -/
theorem checkRateLimit_window_reject (rl : RateLimiter) (hits : Nat) (now now2 : Int)
    (hg1 : ¬(now - rl.lastRequestTime < rl.minRequestDelay ∧
      2000 < rl.minRequestDelay - (now - rl.lastRequestTime)))
    (hpos : 0 < rl.maxRequestsPerMinute)
    (hlen : rl.maxRequestsPerMinute ≤
      (rl.requestQueue.filter (fun t => now - rl.requestWindow < t)).length) :
    checkRateLimit rl hits now now2 =
      (.rejectedWindow,
       { rl with requestQueue := rl.requestQueue.filter (fun t => now - rl.requestWindow < t) },
       hits + 1) := by
  simp only [checkRateLimit]
  rw [if_neg hg1]
  rw [if_pos hlen]
  rcases hq : rl.requestQueue.filter (fun t => now - rl.requestWindow < t) with _ | ⟨o, rest⟩
  · rw [hq] at hlen
    simp at hlen
    omega
  · have homem : o ∈ rl.requestQueue.filter (fun t => now - rl.requestWindow < t) := by
      rw [hq]; exact List.mem_cons_self o rest
    have hopred : now - rl.requestWindow < o := by
      have := (List.mem_filter.mp homem).2
      simpa using this
    simp only [List.head?_cons]
    rw [if_pos (by omega)]

/-- Past the spacing gate, a purged window below the cap admits: the wait is
the spacing deficit, and the second Date.now() read is recorded as
last-admitted and appended to the purged window. -/
theorem checkRateLimit_admit (rl : RateLimiter) (hits : Nat) (now now2 : Int)
    (hg1 : ¬(now - rl.lastRequestTime < rl.minRequestDelay ∧
      2000 < rl.minRequestDelay - (now - rl.lastRequestTime)))
    (hlen : (rl.requestQueue.filter (fun t => now - rl.requestWindow < t)).length <
      rl.maxRequestsPerMinute) :
    checkRateLimit rl hits now now2 =
      (.admitted (if now - rl.lastRequestTime < rl.minRequestDelay then
          rl.minRequestDelay - (now - rl.lastRequestTime) else 0),
       { rl with
           requestQueue :=
             rl.requestQueue.filter (fun t => now - rl.requestWindow < t) ++ [now2],
           lastRequestTime := now2 },
       hits) := by
  simp only [checkRateLimit]
  rw [if_neg hg1]
  rw [if_neg (by omega)]

/-- Claim C4: on every admission attempt the limiter applies the
minimum-spacing gate and then the window gate. A spacing deficit above
2000 ms rejects outright with the state untouched; a deficit of at most
2000 ms is waited out synchronously (the admitted outcome carries the
deficit as its wait) and never causes a minimum-spacing rejection; after
purging timestamps older than requestWindow, a window already holding
maxRequestsPerMinute timestamps rejects; otherwise the call is admitted
and the second Date.now() read is recorded as last-admitted and appended
to the window. -/
theorem claim_C4_rate_limiter_gates :
    (∀ (rl : RateLimiter) (hits : Nat) (now now2 : Int),
      now - rl.lastRequestTime < rl.minRequestDelay →
      2000 < rl.minRequestDelay - (now - rl.lastRequestTime) →
      checkRateLimit rl hits now now2 = (.rejectedMinDelay, rl, hits)) ∧
    (∀ (rl : RateLimiter) (hits : Nat) (now now2 : Int),
      now - rl.lastRequestTime < rl.minRequestDelay →
      rl.minRequestDelay - (now - rl.lastRequestTime) ≤ 2000 →
      (checkRateLimit rl hits now now2).1 ≠ .rejectedMinDelay) ∧
    (∀ (rl : RateLimiter) (hits : Nat) (now now2 : Int),
      ¬(now - rl.lastRequestTime < rl.minRequestDelay ∧
        2000 < rl.minRequestDelay - (now - rl.lastRequestTime)) →
      0 < rl.maxRequestsPerMinute →
      rl.maxRequestsPerMinute ≤
        (rl.requestQueue.filter (fun t => now - rl.requestWindow < t)).length →
      checkRateLimit rl hits now now2 =
        (.rejectedWindow,
         { rl with requestQueue := rl.requestQueue.filter (fun t => now - rl.requestWindow < t) },
         hits + 1)) ∧
    (∀ (rl : RateLimiter) (hits : Nat) (now now2 : Int),
      ¬(now - rl.lastRequestTime < rl.minRequestDelay ∧
        2000 < rl.minRequestDelay - (now - rl.lastRequestTime)) →
      (rl.requestQueue.filter (fun t => now - rl.requestWindow < t)).length <
        rl.maxRequestsPerMinute →
      checkRateLimit rl hits now now2 =
        (.admitted (if now - rl.lastRequestTime < rl.minRequestDelay then
            rl.minRequestDelay - (now - rl.lastRequestTime) else 0),
         { rl with
             requestQueue :=
               rl.requestQueue.filter (fun t => now - rl.requestWindow < t) ++ [now2],
             lastRequestTime := now2 },
         hits)) := by
  exact ⟨fun rl hits now now2 h1 h2 => checkRateLimit_minDelay_reject rl hits now now2 h1 h2,
    fun rl hits now now2 h1 h2 => checkRateLimit_small_deficit_not_reject rl hits now now2 h1 h2,
    fun rl hits now now2 hg1 hpos hlen => checkRateLimit_window_reject rl hits now now2 hg1 hpos hlen,
    fun rl hits now now2 hg1 hlen => checkRateLimit_admit rl hits now now2 hg1 hlen⟩

/-- A limiter whose last admitted call was at time 999000 and whose window
holds the default cap of 15 timestamps close to time 1000000. -/
def rlFull : RateLimiter :=
  { requestQueue := [960000, 961000, 962000, 963000, 964000, 965000, 966000, 967000,
      968000, 969000, 970000, 971000, 972000, 973000, 974000],
    lastRequestTime := 999000, minRequestDelay := 4000, requestWindow := 60000,
    maxRequestsPerMinute := 15 }

/-- The fresh default limiter right after admitting a call at 1000001. -/
def rlAfterAdmit : RateLimiter :=
  { initialRateLimiter with requestQueue := [1000001], lastRequestTime := 1000001 }

/-- Witness for claim C4 at concrete inputs: a 3500 ms deficit rejects
outright; a 1000 ms deficit does not trigger the spacing rejection; a full
window rejects; an empty fresh limiter admits and records the timestamp. -/
theorem claim_C4_rate_limiter_gates_witness :
    checkRateLimit rlFull 0 999500 999500 = (.rejectedMinDelay, rlFull, 0) ∧
    (checkRateLimit rlFull 0 1002000 1003000).1 ≠ .rejectedMinDelay ∧
    checkRateLimit rlFull 3 1003000 1003000 = (.rejectedWindow, rlFull, 4) ∧
    checkRateLimit initialRateLimiter 0 1000000 1000001 = (.admitted 0, rlAfterAdmit, 0) := by
  refine ⟨?_, ?_, ?_, ?_⟩
  · exact claim_C4_rate_limiter_gates.1 rlFull 0 999500 999500 (by decide) (by decide)
  · exact claim_C4_rate_limiter_gates.2.1 rlFull 0 1002000 1003000 (by decide) (by decide)
  · have h := claim_C4_rate_limiter_gates.2.2.1 rlFull 3 1003000 1003000
      (by decide) (by decide) (by decide)
    rw [h]
    decide
  · have h := claim_C4_rate_limiter_gates.2.2.2 initialRateLimiter 0 1000000 1000001
      (by decide) (by decide)
    rw [h]
    decide

/-! ## Path lemmas for the orchestrator -/

/-- A valid input hitting the cache returns the cached value, touches the
entry, and leaves breaker, limiter and upstream counters untouched. -/
theorem lookup_cache_hit (g : GeoState) (ip s : String) (v : Option LocationResult)
    (now : Int) (env : LookupEnv)
    (hv : isValidInput ip = true) (hs : sanitizeIp ip = some s)
    (hval : JsMap.getVal g.cache s = some v) :
    (lookup g ip now env).1 = .value v ∧
    (lookup g ip now env).2.cache = cacheTouch g.cache s ∧
    (lookup g ip now env).2.circuitBreaker = g.circuitBreaker ∧
    (lookup g ip now env).2.rateLimiter = g.rateLimiter ∧
    (lookup g ip now env).2.stats.apiCalls = g.stats.apiCalls := by
  simp only [lookup, hv, hs, hval]
  simp

/-- A valid, uncached, non-pending private address returns null without
touching the cache, the breaker, the limiter or the upstream counters. -/
theorem lookup_private (g : GeoState) (ip s : String) (now : Int) (env : LookupEnv)
    (hv : isValidInput ip = true) (hs : sanitizeIp ip = some s)
    (hc : JsMap.getVal g.cache s = none) (hp : s ∉ g.pendingRequests)
    (hpriv : isPrivateIP s = true) :
    (lookup g ip now env).1 = .value none ∧
    (lookup g ip now env).2.cache = g.cache ∧
    (lookup g ip now env).2.circuitBreaker = g.circuitBreaker ∧
    (lookup g ip now env).2.rateLimiter = g.rateLimiter ∧
    (lookup g ip now env).2.stats.apiCalls = g.stats.apiCalls ∧
    (lookup g ip now env).2.pendingRequests = g.pendingRequests := by
  simp only [lookup, hv, hs, hc, hp, hpriv]
  simp [hp]

/-- A lookup denied by an OPEN breaker caches null for the address and
performs no upstream call. -/
theorem lookup_breaker_denied (g : GeoState) (ip s : String) (now : Int) (env : LookupEnv)
    (hv : isValidInput ip = true) (hs : sanitizeIp ip = some s)
    (hc : JsMap.getVal g.cache s = none) (hp : s ∉ g.pendingRequests)
    (hpriv : isPrivateIP s = false)
    (hallow : breakerAllow g.circuitBreaker now = (false, g.circuitBreaker)) :
    (lookup g ip now env).1 = .value none ∧
    (lookup g ip now env).2.cache = addToCache g.maxCacheSize g.cache s none ∧
    (lookup g ip now env).2.circuitBreaker = g.circuitBreaker ∧
    (lookup g ip now env).2.rateLimiter = g.rateLimiter ∧
    (lookup g ip now env).2.stats.apiCalls = g.stats.apiCalls := by
  simp only [lookup, hv, hs, hc, hpriv, hallow]
  simp [hp]

/-- A lookup whose pipeline resolves (rather than throws) writes the
resolved value to the cache, returns it, updates the breaker only on a
non-null result, and carries the pipeline counters. -/
theorem lookup_pipeline_ok_none (g : GeoState) (ip s : String) (now : Int) (env : LookupEnv)
    (rl' : RateLimiter) (hits' api' : Nat) (ds : List Nat)
    (hv : isValidInput ip = true) (hs : sanitizeIp ip = some s)
    (hc : JsMap.getVal g.cache s = none) (hp : s ∉ g.pendingRequests)
    (hpriv : isPrivateIP s = false)
    (hallow : (breakerAllow g.circuitBreaker now).1 = true)
    (hrun : apiLookupWithRetry env g.maxRetries g.retryDelay
        (breakerAllow g.circuitBreaker now).2.state g.rateLimiter
        g.stats.rateLimitHits g.stats.apiCalls 1 = (.ok none, rl', hits', api', ds)) :
    (lookup g ip now env).1 = .value none ∧
    (lookup g ip now env).2.cache = addToCache g.maxCacheSize g.cache s none ∧
    (lookup g ip now env).2.circuitBreaker = (breakerAllow g.circuitBreaker now).2 ∧
    (lookup g ip now env).2.rateLimiter = rl' ∧
    (lookup g ip now env).2.stats.apiCalls = api' ∧
    (lookup g ip now env).2.stats.rateLimitHits = hits' ∧
    (lookup g ip now env).2.pendingRequests = g.pendingRequests := by
  simp only [lookup, hv, hs, hc, hpriv, hallow, hrun, hp]
  simp

theorem lookup_pipeline_ok_some (g : GeoState) (ip s : String) (now : Int) (env : LookupEnv)
    (x : LocationResult) (rl' : RateLimiter) (hits' api' : Nat) (ds : List Nat)
    (hv : isValidInput ip = true) (hs : sanitizeIp ip = some s)
    (hc : JsMap.getVal g.cache s = none) (hp : s ∉ g.pendingRequests)
    (hpriv : isPrivateIP s = false)
    (hallow : (breakerAllow g.circuitBreaker now).1 = true)
    (hrun : apiLookupWithRetry env g.maxRetries g.retryDelay
        (breakerAllow g.circuitBreaker now).2.state g.rateLimiter
        g.stats.rateLimitHits g.stats.apiCalls 1 = (.ok (some x), rl', hits', api', ds)) :
    (lookup g ip now env).1 = .value (some x) ∧
    (lookup g ip now env).2.cache = addToCache g.maxCacheSize g.cache s (some x) ∧
    (lookup g ip now env).2.circuitBreaker =
      breakerOnSuccess (breakerAllow g.circuitBreaker now).2 ∧
    (lookup g ip now env).2.rateLimiter = rl' ∧
    (lookup g ip now env).2.stats.apiCalls = api' ∧
    (lookup g ip now env).2.stats.rateLimitHits = hits' ∧
    (lookup g ip now env).2.pendingRequests = g.pendingRequests := by
  simp only [lookup, hv, hs, hc, hpriv, hallow, hrun, hp]
  simp

/-! ## Lemmas about the retry pipeline -/

/-- A rate-limiter rejection inside the first attempted call makes the
pipeline resolve immediately to null: no retry, no upstream call, no
exception escapes. -/
theorem retry_rate_rejected (env : LookupEnv) (maxRetries retryDelay : Nat)
    (cbState : BreakerState) (rl rl' : RateLimiter) (hits hits' apiCalls attempt : Nat)
    (out : RateOutcome)
    (hq : checkRateLimit rl hits (env.times attempt).1 (env.times attempt).2 =
      (out, rl', hits'))
    (hrej : out = .rejectedMinDelay ∨ out = .rejectedWindow) :
    apiLookupWithRetry env maxRetries retryDelay cbState rl hits apiCalls attempt =
      (.ok none, rl', hits', apiCalls, []) := by
  rcases hrej with h | h <;> subst h <;>
    simp [apiLookupWithRetry, retryAux, apiLookup, hq, errorMessageHasRateLimit]

/-- A first attempt that resolves (status fail, invalid coordinates, or a
good body after rate admission) ends the pipeline at once with no retry. -/
theorem retry_resolves (env : LookupEnv) (maxRetries retryDelay : Nat)
    (cbState : BreakerState) (rl rl' : RateLimiter) (hits hits' apiCalls api' attempt : Nat)
    (r : Option LocationResult)
    (hlook : apiLookup rl hits apiCalls (env.times attempt).1 (env.times attempt).2
        (env.events attempt) = (.ok r, rl', hits', api')) :
    apiLookupWithRetry env maxRetries retryDelay cbState rl hits apiCalls attempt =
      (.ok r, rl', hits', api', []) := by
  simp [apiLookupWithRetry, retryAux, hlook]

/-! ## Claim C9: rejection counting and soft failure -/

/-- Counterexample to claim C9 as stated: at a limiter whose last admitted
call was 500 ms ago (deficit 3500 ms), the admission attempt is rejected by
the minimum-spacing gate, yet the rate-limit rejection counter stays at 0;
not every rate-limiter rejection increments the counter. -/
theorem claim_C9_counterexample :
    (checkRateLimit rlFull 0 999500 999500).1 = .rejectedMinDelay ∧
    (checkRateLimit rlFull 0 999500 999500).2.2 = 0 := by decide

/-- Claim C9 amended: only window-cap rejections increment the rate-limit
rejection counter (stats.rateLimitHits); minimum-spacing rejections leave
it unchanged. No rejection of either kind is surfaced as an exception: the
pipeline turns the rate-limit throw into a resolved null, and the lookup of
a fresh address whose first attempt is rate-rejected resolves to a soft
no-result outcome. -/
theorem claim_C9_soft_rate_failures :
    (∀ (rl : RateLimiter) (hits : Nat) (now now2 : Int),
      ¬(now - rl.lastRequestTime < rl.minRequestDelay ∧
        2000 < rl.minRequestDelay - (now - rl.lastRequestTime)) →
      0 < rl.maxRequestsPerMinute →
      rl.maxRequestsPerMinute ≤
        (rl.requestQueue.filter (fun t => now - rl.requestWindow < t)).length →
      (checkRateLimit rl hits now now2).2.2 = hits + 1 ∧
      (checkRateLimit rl hits now now2).1 = .rejectedWindow) ∧
    (∀ (rl : RateLimiter) (hits : Nat) (now now2 : Int),
      now - rl.lastRequestTime < rl.minRequestDelay →
      2000 < rl.minRequestDelay - (now - rl.lastRequestTime) →
      (checkRateLimit rl hits now now2).2.2 = hits ∧
      (checkRateLimit rl hits now now2).1 = .rejectedMinDelay) ∧
    (∀ (env : LookupEnv) (maxRetries retryDelay : Nat) (cbState : BreakerState)
        (rl rl' : RateLimiter) (hits hits' apiCalls attempt : Nat) (out : RateOutcome),
      checkRateLimit rl hits (env.times attempt).1 (env.times attempt).2 = (out, rl', hits') →
      out = .rejectedMinDelay ∨ out = .rejectedWindow →
      apiLookupWithRetry env maxRetries retryDelay cbState rl hits apiCalls attempt =
        (.ok none, rl', hits', apiCalls, [])) ∧
    (∀ (g : GeoState) (ip s : String) (now : Int) (env : LookupEnv)
        (rl' : RateLimiter) (hits' : Nat) (out : RateOutcome),
      isValidInput ip = true → sanitizeIp ip = some s →
      JsMap.getVal g.cache s = none → s ∉ g.pendingRequests →
      isPrivateIP s = false → g.circuitBreaker.state = .CLOSED →
      checkRateLimit g.rateLimiter g.stats.rateLimitHits
        (env.times 1).1 (env.times 1).2 = (out, rl', hits') →
      out = .rejectedMinDelay ∨ out = .rejectedWindow →
      (lookup g ip now env).1 = .value none) := by
  refine ⟨?_, ?_, ?_, ?_⟩
  · intro rl hits now now2 hg1 hpos hlen
    rw [checkRateLimit_window_reject rl hits now now2 hg1 hpos hlen]
    exact ⟨rfl, rfl⟩
  · intro rl hits now now2 h1 h2
    rw [checkRateLimit_minDelay_reject rl hits now now2 h1 h2]
    exact ⟨rfl, rfl⟩
  · intro env maxRetries retryDelay cbState rl rl' hits hits' apiCalls attempt out hq hrej
    exact retry_rate_rejected env maxRetries retryDelay cbState rl rl' hits hits'
      apiCalls attempt out hq hrej
  · intro g ip s now env rl' hits' out hv hs hc hp hpriv hcb hq hrej
    have hgate : breakerAllow g.circuitBreaker now = (true, g.circuitBreaker) := by
      have : g.circuitBreaker.state ≠ .OPEN := by
        rw [hcb]; exact fun x => BreakerState.noConfusion x
      simp [breakerAllow, this]
    have hrun := retry_rate_rejected env g.maxRetries g.retryDelay
      (breakerAllow g.circuitBreaker now).2.state g.rateLimiter rl'
      g.stats.rateLimitHits hits' g.stats.apiCalls 1 out hq hrej
    exact (lookup_pipeline_ok_none g ip s now env rl' hits' g.stats.apiCalls []
      hv hs hc hp hpriv (by rw [hgate]) hrun).1

/-- A successful upstream body with integer coordinates. -/
def respSuccess : ApiResponse :=
  { status := "success", message := "", lat := .num 37, lon := .num (-122),
    city := some "Mountain View", country := some "US" }

/-- The location respSuccess resolves to. -/
def locMV : LocationResult :=
  { lat := 37, lng := -122, city := "Mountain View", country := "US" }

/-- An environment always answering with respSuccess, with both rate-limiter
clock reads at 1000000. -/
def envBody : LookupEnv :=
  { times := fun _ => (1000000, 1000000), events := fun _ => .body respSuccess,
    failNow := 7777 }

/-- A fresh limiter whose last admitted call was at 999000, so a call at
1000000 has a 3000 ms spacing deficit. -/
def rlLate : RateLimiter :=
  { requestQueue := [], lastRequestTime := 999000, minRequestDelay := 4000,
    requestWindow := 60000, maxRequestsPerMinute := 15 }

/-- A fresh service carrying rlLate. -/
def gLate : GeoState := { initialGeoState with rateLimiter := rlLate }

/-- Witness for the amended claim C9 at concrete inputs: a full window
increments the counter to 4; a spacing rejection keeps it at 0; the
rate-rejected pipeline resolves to null, and so does the whole lookup. -/
theorem claim_C9_soft_rate_failures_witness :
    (checkRateLimit rlFull 3 1003000 1003000).2.2 = 4 ∧
    (checkRateLimit rlFull 0 999500 999500).2.2 = 0 ∧
    apiLookupWithRetry envBody 2 1000 .CLOSED rlLate 0 0 1 = (.ok none, rlLate, 0, 0, []) ∧
    (lookup gLate "8.8.8.8" 5 envBody).1 = .value none := by
  refine ⟨?_, ?_, ?_, ?_⟩
  · exact (claim_C9_soft_rate_failures.1 rlFull 3 1003000 1003000
      (by decide) (by decide) (by decide)).1
  · exact (claim_C9_soft_rate_failures.2.1 rlFull 0 999500 999500
      (by decide) (by decide)).1
  · exact claim_C9_soft_rate_failures.2.2.1 envBody 2 1000 .CLOSED rlLate rlLate
      0 0 0 1 .rejectedMinDelay (by decide) (Or.inl rfl)
  · exact claim_C9_soft_rate_failures.2.2.2 gLate "8.8.8.8" "8.8.8.8" 5 envBody
      rlLate 0 .rejectedMinDelay (by decide) (by decide) (by decide) (by decide)
      (by decide) (by decide) (by decide) (Or.inl rfl)

/-! ## Claim C5: private and reserved addresses -/

/-- Counterexample to claim C5 as stated: looking up the private address
10.0.0.5 on a fresh service returns no result, but no cached negative entry
is written for it — the private-address branch returns before addToCache,
so the cache does not contain the key and nothing was short-circuited to a
cached value. -/
theorem claim_C5_counterexample :
    (lookup initialGeoState "10.0.0.5" 1000 envBody).1 = .value none ∧
    JsMap.hasKey (lookup initialGeoState "10.0.0.5" 1000 envBody).2.cache "10.0.0.5" = false := by
  decide

/-- Claim C5 amended: for every private or reserved address (the examples
10.0.0.5, 192.168.1.1, 127.0.0.1, fe80::1, ::1 all classify as private),
lookup never invokes the upstream, never touches the breaker or the rate
limiter, and returns no result; it writes no cache entry for the address
(private results are not negatively cached). -/
theorem claim_C5_private_exemption :
    (∀ (g : GeoState) (ip s : String) (now : Int) (env : LookupEnv),
      isValidInput ip = true → sanitizeIp ip = some s →
      JsMap.getVal g.cache s = none → s ∉ g.pendingRequests → isPrivateIP s = true →
      (lookup g ip now env).1 = .value none ∧
      (lookup g ip now env).2.cache = g.cache ∧
      (lookup g ip now env).2.circuitBreaker = g.circuitBreaker ∧
      (lookup g ip now env).2.rateLimiter = g.rateLimiter ∧
      (lookup g ip now env).2.stats.apiCalls = g.stats.apiCalls) ∧
    (isPrivateIP "10.0.0.5" = true ∧ isPrivateIP "192.168.1.1" = true ∧
     isPrivateIP "127.0.0.1" = true ∧ isPrivateIP "fe80::1" = true ∧
     isPrivateIP "::1" = true) := by
  refine ⟨?_, by decide⟩
  intro g ip s now env hv hs hc hp hpriv
  have h := lookup_private g ip s now env hv hs hc hp hpriv
  exact ⟨h.1, h.2.1, h.2.2.1, h.2.2.2.1, h.2.2.2.2.1⟩

/-- Witness for the amended claim C5: looking up 192.168.1.1 on a fresh
service returns no result with cache, breaker, limiter and upstream counter
untouched. -/
theorem claim_C5_private_exemption_witness :
    (lookup initialGeoState "192.168.1.1" 1000 envBody).1 = .value none ∧
    (lookup initialGeoState "192.168.1.1" 1000 envBody).2.cache = initialGeoState.cache ∧
    (lookup initialGeoState "192.168.1.1" 1000 envBody).2.circuitBreaker =
      initialGeoState.circuitBreaker ∧
    (lookup initialGeoState "192.168.1.1" 1000 envBody).2.rateLimiter =
      initialGeoState.rateLimiter ∧
    (lookup initialGeoState "192.168.1.1" 1000 envBody).2.stats.apiCalls =
      initialGeoState.stats.apiCalls :=
  claim_C5_private_exemption.1 initialGeoState "192.168.1.1" "192.168.1.1" 1000 envBody
    (by decide) (by decide) (by decide) (by decide) (by decide)

/-! ## Claim C7: explicit upstream rejection is a non-retried, cached,
breaker-neutral negative result -/

/-- The written entry of addToCache is always retrievable. -/
theorem getVal_addToCache_self (maxCacheSize : Nat) (cache : JsMap (Option LocationResult))
    (ip : String) (data : Option LocationResult) :
    JsMap.getVal (addToCache maxCacheSize cache ip data) ip = some data := by
  simp only [addToCache]
  exact JsMap.getVal_setVal_self _ ip data

/-- A rate-admitted body whose status is fail or whose coordinates fail
validation makes apiLookup resolve to null, counting the upstream call. -/
theorem apiLookup_rejected_body (rl rl' : RateLimiter) (hits hits' apiCalls : Nat)
    (now now2 w : Int) (resp : ApiResponse)
    (hq : checkRateLimit rl hits now now2 = (.admitted w, rl', hits'))
    (hbad : resp.status = "fail" ∨ isValidCoordinate resp.lat resp.lon = false) :
    apiLookup rl hits apiCalls now now2 (.body resp) = (.ok none, rl', hits', apiCalls + 1) := by
  by_cases hst : resp.status = "fail"
  · simp [apiLookup, hq, hst]
  · rcases hbad with h | h
    · exact absurd h hst
    · simp [apiLookup, hq, hst, h]

/-- Claim C7: an upstream response with body status fail, or with
non-numeric or out-of-range coordinates, is a non-retryable negative
result: apiLookup resolves it to null, the pipeline performs exactly one
upstream call and no retry (empty delay list), and a lookup carrying it
returns no result, caches the null entry, and leaves the breaker — state
and failure counter — exactly as it was. -/
theorem claim_C7_api_rejected_negative :
    (∀ (rl rl' : RateLimiter) (hits hits' apiCalls : Nat) (now now2 w : Int)
        (resp : ApiResponse),
      checkRateLimit rl hits now now2 = (.admitted w, rl', hits') →
      (resp.status = "fail" ∨ isValidCoordinate resp.lat resp.lon = false) →
      apiLookup rl hits apiCalls now now2 (.body resp) =
        (.ok none, rl', hits', apiCalls + 1)) ∧
    (∀ (env : LookupEnv) (maxRetries retryDelay : Nat) (cbState : BreakerState)
        (rl rl' : RateLimiter) (hits hits' apiCalls attempt : Nat) (w : Int)
        (resp : ApiResponse),
      env.events attempt = .body resp →
      checkRateLimit rl hits (env.times attempt).1 (env.times attempt).2 =
        (.admitted w, rl', hits') →
      (resp.status = "fail" ∨ isValidCoordinate resp.lat resp.lon = false) →
      apiLookupWithRetry env maxRetries retryDelay cbState rl hits apiCalls attempt =
        (.ok none, rl', hits', apiCalls + 1, [])) ∧
    (∀ (g : GeoState) (ip s : String) (now : Int) (env : LookupEnv) (rl' : RateLimiter)
        (hits' : Nat) (w : Int) (resp : ApiResponse),
      isValidInput ip = true → sanitizeIp ip = some s →
      JsMap.getVal g.cache s = none → s ∉ g.pendingRequests →
      isPrivateIP s = false → g.circuitBreaker.state = .CLOSED →
      env.events 1 = .body resp →
      checkRateLimit g.rateLimiter g.stats.rateLimitHits
        (env.times 1).1 (env.times 1).2 = (.admitted w, rl', hits') →
      (resp.status = "fail" ∨ isValidCoordinate resp.lat resp.lon = false) →
      (lookup g ip now env).1 = .value none ∧
      (lookup g ip now env).2.circuitBreaker = g.circuitBreaker ∧
      (lookup g ip now env).2.stats.apiCalls = g.stats.apiCalls + 1 ∧
      JsMap.getVal (lookup g ip now env).2.cache s = some none) := by
  have hretry : ∀ (env : LookupEnv) (maxRetries retryDelay : Nat) (cbState : BreakerState)
      (rl rl' : RateLimiter) (hits hits' apiCalls attempt : Nat) (w : Int)
      (resp : ApiResponse),
      env.events attempt = .body resp →
      checkRateLimit rl hits (env.times attempt).1 (env.times attempt).2 =
        (.admitted w, rl', hits') →
      (resp.status = "fail" ∨ isValidCoordinate resp.lat resp.lon = false) →
      apiLookupWithRetry env maxRetries retryDelay cbState rl hits apiCalls attempt =
        (.ok none, rl', hits', apiCalls + 1, []) := by
    intro env maxRetries retryDelay cbState rl rl' hits hits' apiCalls attempt w resp
      hev hq hbad
    have hlook := apiLookup_rejected_body rl rl' hits hits' apiCalls
      (env.times attempt).1 (env.times attempt).2 w resp hq hbad
    rw [← hev] at hlook
    exact retry_resolves env maxRetries retryDelay cbState rl rl' hits hits'
      apiCalls (apiCalls + 1) attempt none hlook
  refine ⟨?_, hretry, ?_⟩
  · intro rl rl' hits hits' apiCalls now now2 w resp hq hbad
    exact apiLookup_rejected_body rl rl' hits hits' apiCalls now now2 w resp hq hbad
  · intro g ip s now env rl' hits' w resp hv hs hc hp hpriv hcb hev hq hbad
    have hgate : breakerAllow g.circuitBreaker now = (true, g.circuitBreaker) := by
      have : g.circuitBreaker.state ≠ .OPEN := by
        rw [hcb]; exact fun x => BreakerState.noConfusion x
      simp [breakerAllow, this]
    have hrun := hretry env g.maxRetries g.retryDelay
      (breakerAllow g.circuitBreaker now).2.state g.rateLimiter rl'
      g.stats.rateLimitHits hits' g.stats.apiCalls 1 w resp hev hq hbad
    have h := lookup_pipeline_ok_none g ip s now env rl' hits' (g.stats.apiCalls + 1) []
      hv hs hc hp hpriv (by rw [hgate]) hrun
    refine ⟨h.1, ?_, h.2.2.2.2.1, ?_⟩
    · rw [h.2.2.1, hgate]
    · rw [h.2.1]
      exact getVal_addToCache_self g.maxCacheSize g.cache s none

/-- An upstream body explicitly reporting failure. -/
def respFailBody : ApiResponse :=
  { status := "fail", message := "private range", lat := .notNum, lon := .notNum,
    city := none, country := none }

/-- An environment always answering with respFailBody at clock 1000000. -/
def envFailBody : LookupEnv :=
  { times := fun _ => (1000000, 1000000), events := fun _ => .body respFailBody,
    failNow := 7777 }

/-- The fresh default limiter right after admitting a call at 1000000. -/
def rlAfterFailBody : RateLimiter :=
  { initialRateLimiter with requestQueue := [1000000], lastRequestTime := 1000000 }

/-- Witness for claim C7 at concrete inputs: a status-fail body after a
fresh admission resolves to null with one upstream call and no retry, and
the lookup of 8.8.8.8 carrying it caches the negative entry with the
breaker untouched. -/
theorem claim_C7_api_rejected_negative_witness :
    apiLookup initialRateLimiter 0 0 1000000 1000000 (.body respFailBody) =
      (.ok none, rlAfterFailBody, 0, 1) ∧
    apiLookupWithRetry envFailBody 2 1000 .CLOSED initialRateLimiter 0 0 1 =
      (.ok none, rlAfterFailBody, 0, 1, []) ∧
    (lookup initialGeoState "8.8.8.8" 5 envFailBody).1 = .value none ∧
    (lookup initialGeoState "8.8.8.8" 5 envFailBody).2.circuitBreaker =
      initialGeoState.circuitBreaker ∧
    (lookup initialGeoState "8.8.8.8" 5 envFailBody).2.stats.apiCalls =
      initialGeoState.stats.apiCalls + 1 ∧
    JsMap.getVal (lookup initialGeoState "8.8.8.8" 5 envFailBody).2.cache "8.8.8.8" =
      some none := by
  refine ⟨?_, ?_, ?_⟩
  · exact claim_C7_api_rejected_negative.1 initialRateLimiter rlAfterFailBody 0 0 0
      1000000 1000000 0 respFailBody (by decide) (Or.inl (by decide))
  · exact claim_C7_api_rejected_negative.2.1 envFailBody 2 1000 .CLOSED
      initialRateLimiter rlAfterFailBody 0 0 0 1 0 respFailBody rfl (by decide)
      (Or.inl (by decide))
  · exact claim_C7_api_rejected_negative.2.2 initialGeoState "8.8.8.8" "8.8.8.8" 5
      envFailBody rlAfterFailBody 0 0 respFailBody (by decide) (by decide) (by decide)
      (by decide) (by decide) (by decide) rfl (by decide) (Or.inl (by decide))

/-! ## Claim C10: negative caching of breaker-open and rate-limited denials -/

/-- A cached-null service state for the C10 witness. -/
def gCachedNull : GeoState := { initialGeoState with cache := [("8.8.8.8", none)] }

/-- Claim C10: a lookup of a fresh, non-private IP denied by an OPEN breaker
or rejected by the rate limiter on its upstream attempt writes a null cache
entry for that IP and performs no upstream call; afterwards any lookup of an
IP whose cache entry is null returns the cached null without touching the
upstream, the breaker or the limiter — whatever their current state — until
the entry is evicted. -/
theorem claim_C10_negative_caching_on_denial :
    (∀ (g : GeoState) (ip s : String) (now : Int) (env : LookupEnv),
      isValidInput ip = true → sanitizeIp ip = some s →
      JsMap.getVal g.cache s = none → s ∉ g.pendingRequests → isPrivateIP s = false →
      g.circuitBreaker.state = .OPEN →
      now - g.circuitBreaker.lastFailureTime.getD 0 ≤ g.circuitBreaker.resetTimeout →
      (lookup g ip now env).1 = .value none ∧
      JsMap.getVal (lookup g ip now env).2.cache s = some none ∧
      (lookup g ip now env).2.stats.apiCalls = g.stats.apiCalls) ∧
    (∀ (g : GeoState) (ip s : String) (now : Int) (env : LookupEnv)
        (rl' : RateLimiter) (hits' : Nat) (out : RateOutcome),
      isValidInput ip = true → sanitizeIp ip = some s →
      JsMap.getVal g.cache s = none → s ∉ g.pendingRequests → isPrivateIP s = false →
      g.circuitBreaker.state = .CLOSED →
      checkRateLimit g.rateLimiter g.stats.rateLimitHits
        (env.times 1).1 (env.times 1).2 = (out, rl', hits') →
      out = .rejectedMinDelay ∨ out = .rejectedWindow →
      (lookup g ip now env).1 = .value none ∧
      JsMap.getVal (lookup g ip now env).2.cache s = some none ∧
      (lookup g ip now env).2.stats.apiCalls = g.stats.apiCalls) ∧
    (∀ (g : GeoState) (ip s : String) (now : Int) (env : LookupEnv),
      isValidInput ip = true → sanitizeIp ip = some s →
      JsMap.getVal g.cache s = some none →
      (lookup g ip now env).1 = .value none ∧
      (lookup g ip now env).2.stats.apiCalls = g.stats.apiCalls ∧
      (lookup g ip now env).2.circuitBreaker = g.circuitBreaker ∧
      (lookup g ip now env).2.rateLimiter = g.rateLimiter) := by
  refine ⟨?_, ?_, ?_⟩
  · intro g ip s now env hv hs hc hp hpriv hOpen hNe
    have hallow : breakerAllow g.circuitBreaker now = (false, g.circuitBreaker) := by
      have hnotlt : ¬ (g.circuitBreaker.resetTimeout <
          now - g.circuitBreaker.lastFailureTime.getD 0) := by omega
      simp [breakerAllow, hOpen, hnotlt]
    have h := lookup_breaker_denied g ip s now env hv hs hc hp hpriv hallow
    refine ⟨h.1, ?_, h.2.2.2.2⟩
    rw [h.2.1]
    exact getVal_addToCache_self g.maxCacheSize g.cache s none
  · intro g ip s now env rl' hits' out hv hs hc hp hpriv hcb hq hrej
    have hgate : breakerAllow g.circuitBreaker now = (true, g.circuitBreaker) := by
      have : g.circuitBreaker.state ≠ .OPEN := by
        rw [hcb]; exact fun x => BreakerState.noConfusion x
      simp [breakerAllow, this]
    have hrun := retry_rate_rejected env g.maxRetries g.retryDelay
      (breakerAllow g.circuitBreaker now).2.state g.rateLimiter rl'
      g.stats.rateLimitHits hits' g.stats.apiCalls 1 out hq hrej
    have h := lookup_pipeline_ok_none g ip s now env rl' hits' g.stats.apiCalls []
      hv hs hc hp hpriv (by rw [hgate]) hrun
    refine ⟨h.1, ?_, h.2.2.2.2.1⟩
    rw [h.2.1]
    exact getVal_addToCache_self g.maxCacheSize g.cache s none
  · intro g ip s now env hv hs hval
    have h := lookup_cache_hit g ip s none now env hv hs hval
    exact ⟨h.1, h.2.2.2.2, h.2.2.1, h.2.2.2.1⟩

/-- Witness for claim C10 at concrete inputs: the OPEN breaker denial and
the rate-limited attempt both cache null for 8.8.8.8 with zero upstream
calls, and a later lookup of a cached-null IP resolves from the cache with
breaker and limiter untouched. -/
theorem claim_C10_negative_caching_on_denial_witness :
    ((lookup gOpen "8.8.8.8" 2000 envBody).1 = .value none ∧
     JsMap.getVal (lookup gOpen "8.8.8.8" 2000 envBody).2.cache "8.8.8.8" = some none ∧
     (lookup gOpen "8.8.8.8" 2000 envBody).2.stats.apiCalls = gOpen.stats.apiCalls) ∧
    ((lookup gLate "8.8.8.8" 5 envBody).1 = .value none ∧
     JsMap.getVal (lookup gLate "8.8.8.8" 5 envBody).2.cache "8.8.8.8" = some none ∧
     (lookup gLate "8.8.8.8" 5 envBody).2.stats.apiCalls = gLate.stats.apiCalls) ∧
    ((lookup gCachedNull "8.8.8.8" 5 envBody).1 = .value none ∧
     (lookup gCachedNull "8.8.8.8" 5 envBody).2.stats.apiCalls =
       gCachedNull.stats.apiCalls ∧
     (lookup gCachedNull "8.8.8.8" 5 envBody).2.circuitBreaker =
       gCachedNull.circuitBreaker ∧
     (lookup gCachedNull "8.8.8.8" 5 envBody).2.rateLimiter = gCachedNull.rateLimiter) := by
  refine ⟨?_, ?_, ?_⟩
  · exact claim_C10_negative_caching_on_denial.1 gOpen "8.8.8.8" "8.8.8.8" 2000 envBody
      (by decide) (by decide) (by decide) (by decide) (by decide) (by decide) (by decide)
  · exact claim_C10_negative_caching_on_denial.2.1 gLate "8.8.8.8" "8.8.8.8" 5 envBody
      rlLate 0 .rejectedMinDelay (by decide) (by decide) (by decide) (by decide)
      (by decide) (by decide) (by decide) (Or.inl rfl)
  · exact claim_C10_negative_caching_on_denial.2.2 gCachedNull "8.8.8.8" "8.8.8.8" 5
      envBody (by decide) (by decide) (by decide)

/-! ## Claim C6: retry count and exponential backoff -/

/-- The default limiter right after an admission at time t. -/
def rlPrev (t : Int) : RateLimiter :=
  { initialRateLimiter with requestQueue := [t], lastRequestTime := t }

/-- Limiter state at the start of attempt a of the millisecond-spaced
schedule: fresh before attempt 1, afterwards holding just the previous
admission timestamp. -/
def rlAtt (a : Nat) : RateLimiter :=
  if a ≤ 1 then initialRateLimiter else rlPrev (1000000 * ((a : Int) - 1))

/-- An environment whose rate-limiter clock reads 1000000 times the attempt
number, so that every attempt is admitted (spacing 1000000 ms, window
purged each time). -/
def envSched (ev : Nat → Upstream) (failNow : Int) : LookupEnv :=
  { times := fun k => (1000000 * (k : Int), 1000000 * (k : Int)), events := ev,
    failNow := failNow }

/-- Every attempt of the millisecond-spaced schedule passes both limiter
gates with no wait. -/
theorem checkRateLimit_att (a hits : Nat) (ha : 1 ≤ a) :
    checkRateLimit (rlAtt a) hits (1000000 * (a : Int)) (1000000 * (a : Int)) =
      (.admitted 0, rlAtt (a + 1), hits) := by
  have hnext : rlAtt (a + 1) = rlPrev (1000000 * (a : Int)) := by
    simp only [rlAtt, if_neg (by omega : ¬ (a + 1 ≤ 1))]
    norm_num
  by_cases h1 : a ≤ 1
  · have ha1 : a = 1 := by omega
    subst ha1
    rw [hnext]
    norm_num [checkRateLimit, rlAtt, initialRateLimiter, rlPrev]
  · have hform : rlAtt a = rlPrev (1000000 * ((a : Int) - 1)) := by
      simp only [rlAtt, if_neg h1]
    have hcast : (2 : Int) ≤ (a : Int) := by exact_mod_cast (by omega : 2 ≤ a)
    rw [hnext, hform]
    have hg1 : ¬(1000000 * (a : Int) - (rlPrev (1000000 * ((a : Int) - 1))).lastRequestTime <
        (rlPrev (1000000 * ((a : Int) - 1))).minRequestDelay ∧
        2000 < (rlPrev (1000000 * ((a : Int) - 1))).minRequestDelay -
          (1000000 * (a : Int) - (rlPrev (1000000 * ((a : Int) - 1))).lastRequestTime)) := by
      simp only [rlPrev, initialRateLimiter]
      intro hx
      exfalso
      rcases hx with ⟨hx1, hx2⟩
      nlinarith
    have hfilter : (rlPrev (1000000 * ((a : Int) - 1))).requestQueue.filter
        (fun t => 1000000 * (a : Int) - (rlPrev (1000000 * ((a : Int) - 1))).requestWindow < t) = [] := by
      simp only [rlPrev, initialRateLimiter]
      simp only [List.filter_cons, List.filter_nil]
      rw [if_neg (by simp; nlinarith)]
    have hlen : ((rlPrev (1000000 * ((a : Int) - 1))).requestQueue.filter
        (fun t => 1000000 * (a : Int) - (rlPrev (1000000 * ((a : Int) - 1))).requestWindow < t)).length <
        (rlPrev (1000000 * ((a : Int) - 1))).maxRequestsPerMinute := by
      rw [hfilter]
      simp [rlPrev, initialRateLimiter]
    have hres := checkRateLimit_admit (rlPrev (1000000 * ((a : Int) - 1))) hits
      (1000000 * (a : Int)) (1000000 * (a : Int)) hg1 hlen
    rw [hres, hfilter]
    have hwait : ¬ (1000000 * (a : Int) - (rlPrev (1000000 * ((a : Int) - 1))).lastRequestTime <
        (rlPrev (1000000 * ((a : Int) - 1))).minRequestDelay) := by
      simp only [rlPrev, initialRateLimiter]
      simp
      nlinarith
    rw [if_neg hwait]
    simp [rlPrev, initialRateLimiter]

/-- The typed error thrown out of a fetch-level failure event. -/
def errOfEvent : Upstream → ApiError
  | .httpErrorResp c => .httpError c
  | .timeoutAbort => .timeoutError
  | .fetchFailure => .fetchFailed
  | .body _ => .fetchFailed

/-- On the millisecond-spaced schedule, an attempt whose event is a timeout
or HTTP error is admitted, counted, and throws the corresponding error. -/
theorem apiLookup_att (ev : Nat → Upstream) (a hits apiCalls : Nat)
    (ha : 1 ≤ a)
    (hev : ev a = .timeoutAbort ∨ ∃ c, ev a = .httpErrorResp c) :
    apiLookup (rlAtt a) hits apiCalls (1000000 * (a : Int)) (1000000 * (a : Int)) (ev a) =
      (.error (errOfEvent (ev a)), rlAtt (a + 1), hits, apiCalls + 1) := by
  have hq := checkRateLimit_att a hits ha
  rcases hev with h | ⟨c, h⟩ <;> rw [h] <;> simp [apiLookup, hq, errOfEvent]

/-- Timeout and HTTP errors are not rate-limit errors. -/
theorem retryable_not_rate (u : Upstream)
    (hu : u = .timeoutAbort ∨ ∃ c, u = .httpErrorResp c) :
    errorMessageHasRateLimit (errOfEvent u) = false := by
  rcases hu with h | ⟨c, h⟩ <;> subst h <;> rfl

/-- One unfolding of retryAux at an attempt that throws a non-rate error
with no retry budget left: the error propagates. -/
theorem retryAux_error_last (env : LookupEnv) (maxRetries retryDelay : Nat)
    (cbState : BreakerState) (fuel : Nat) (rl rl' : RateLimiter)
    (hits hits' apiCalls api' attempt : Nat) (e : ApiError)
    (hlook : apiLookup rl hits apiCalls (env.times attempt).1 (env.times attempt).2
      (env.events attempt) = (.error e, rl', hits', api'))
    (hnr : errorMessageHasRateLimit e = false) (hcb : cbState ≠ .OPEN)
    (hge : ¬ (attempt < maxRetries)) :
    retryAux env maxRetries retryDelay cbState fuel rl hits apiCalls attempt =
      (.error e, rl', hits', api', []) := by
  conv_lhs => rw [retryAux]
  rw [hlook]
  simp [hnr, hcb, hge]

/-- One unfolding of retryAux at an attempt that throws a non-rate error
with retry budget left: sleep the exponential backoff and recurse. -/
theorem retryAux_error_step (env : LookupEnv) (maxRetries retryDelay : Nat)
    (cbState : BreakerState) (f : Nat) (rl rl' : RateLimiter)
    (hits hits' apiCalls api' attempt : Nat) (e : ApiError)
    (hlook : apiLookup rl hits apiCalls (env.times attempt).1 (env.times attempt).2
      (env.events attempt) = (.error e, rl', hits', api'))
    (hnr : errorMessageHasRateLimit e = false) (hcb : cbState ≠ .OPEN)
    (hlt : attempt < maxRetries) :
    retryAux env maxRetries retryDelay cbState (f + 1) rl hits apiCalls attempt =
      ((retryAux env maxRetries retryDelay cbState f rl' hits' api' (attempt + 1)).1,
       (retryAux env maxRetries retryDelay cbState f rl' hits' api' (attempt + 1)).2.1,
       (retryAux env maxRetries retryDelay cbState f rl' hits' api' (attempt + 1)).2.2.1,
       (retryAux env maxRetries retryDelay cbState f rl' hits' api' (attempt + 1)).2.2.2.1,
       retryDelay * 2 ^ (attempt - 1) ::
         (retryAux env maxRetries retryDelay cbState f rl' hits' api' (attempt + 1)).2.2.2.2) := by
  conv_lhs => rw [retryAux]
  rw [hlook]
  simp [hnr, hcb, hlt]

/-- With every attempt of the schedule failing with a timeout or HTTP error
and the breaker not OPEN, the pipeline performs one upstream call per
attempt from a through maxRetries, sleeps the exponential backoff before
each retry, and finally throws the last error. -/
theorem retryAux_always_fail (ev : Nat → Upstream) (failNow : Int)
    (maxRetries retryDelay : Nat) (cbState : BreakerState)
    (hev : ∀ k, ev k = .timeoutAbort ∨ ∃ c, ev k = .httpErrorResp c)
    (hcb : cbState ≠ .OPEN) :
    ∀ (n a hits apiCalls : Nat), 1 ≤ a → a + n = maxRetries →
    retryAux (envSched ev failNow) maxRetries retryDelay cbState n (rlAtt a) hits apiCalls a =
      (.error (errOfEvent (ev maxRetries)), rlAtt (maxRetries + 1), hits, apiCalls + (n + 1),
       (List.range' a n).map (fun k => retryDelay * 2 ^ (k - 1))) := by
  intro n
  induction n with
  | zero =>
    intro a hits apiCalls ha heq
    have haM : a = maxRetries := by omega
    subst haM
    have hlook := apiLookup_att ev a hits apiCalls ha (hev a)
    rw [retryAux_error_last (envSched ev failNow) a retryDelay cbState 0 (rlAtt a)
      (rlAtt (a + 1)) hits hits apiCalls (apiCalls + 1) a (errOfEvent (ev a)) hlook
      (retryable_not_rate (ev a) (hev a)) hcb (by omega)]
    norm_num [List.range']
  | succ m ih =>
    intro a hits apiCalls ha heq
    have hlook := apiLookup_att ev a hits apiCalls ha (hev a)
    rw [retryAux_error_step (envSched ev failNow) maxRetries retryDelay cbState m (rlAtt a)
      (rlAtt (a + 1)) hits hits apiCalls (apiCalls + 1) a (errOfEvent (ev a)) hlook
      (retryable_not_rate (ev a) (hev a)) hcb (by omega)]
    have ihres := ih (a + 1) hits (apiCalls + 1) (by omega) (by omega)
    rw [ihres]
    have hr : List.range' a (m + 1) = a :: List.range' (a + 1) m := rfl
    rw [hr]
    simp only [List.map_cons]
    refine Prod.ext rfl (Prod.ext rfl (Prod.ext rfl (Prod.ext ?_ rfl)))
    simp only
    omega

deriving instance DecidableEq for Except

/-- Counterexample to claim C6 as stated: with the default maxRetries = 2
and an upstream that times out on every attempt, the pipeline performs 2
upstream calls in total and a single backoff sleep of retryDelay ms — that
is, 1 additional attempt beyond the first, not maxRetries = 2 additional
attempts as the claim (and the spec table) states. -/
theorem claim_C6_counterexample :
    apiLookupWithRetry envTimeout 2 1000 .CLOSED initialRateLimiter 0 0 1 =
      (.error .timeoutError, rlPrev 2000000, 0, 2, [1000]) ∧
    (apiLookupWithRetry envTimeout 2 1000 .CLOSED initialRateLimiter 0 0 1).2.2.2.1 - 1 ≠ 2 := by
  decide

/-- Claim C6 amended: on upstream Timeout or HTTP errors (with the breaker
not OPEN and the limiter admitting each attempt), the call is retried while
the attempt number is strictly below maxRetries — i.e. up to maxRetries − 1
additional attempts beyond the first, maxRetries upstream calls in total —
and the delay slept before the retry following attempt k is
retryDelay × 2^(k−1). -/
theorem claim_C6_retry_backoff :
    ∀ (ev : Nat → Upstream) (failNow : Int) (maxRetries retryDelay : Nat)
      (cbState : BreakerState) (hits apiCalls : Nat),
      (∀ k, ev k = .timeoutAbort ∨ ∃ c, ev k = .httpErrorResp c) →
      cbState ≠ .OPEN → 1 ≤ maxRetries →
      apiLookupWithRetry (envSched ev failNow) maxRetries retryDelay cbState
          initialRateLimiter hits apiCalls 1 =
        (.error (errOfEvent (ev maxRetries)), rlAtt (maxRetries + 1), hits,
         apiCalls + maxRetries,
         (List.range' 1 (maxRetries - 1)).map (fun k => retryDelay * 2 ^ (k - 1))) := by
  intro ev failNow maxRetries retryDelay cbState hits apiCalls hev hcb hmr
  have h := retryAux_always_fail ev failNow maxRetries retryDelay cbState hev hcb
    (maxRetries - 1) 1 hits apiCalls (by omega) (by omega)
  have hfuel : maxRetries - 1 = maxRetries - 1 := rfl
  have hinit : rlAtt 1 = initialRateLimiter := rfl
  rw [apiLookupWithRetry, ← hinit]
  rw [h]
  have : maxRetries - 1 + 1 = maxRetries := by omega
  rw [this]

/-- Witness for the amended claim C6 at maxRetries = 2, retryDelay = 1000
with an always-timeout upstream: two upstream calls, one 1000 ms backoff. -/
theorem claim_C6_retry_backoff_witness :
    apiLookupWithRetry (envSched (fun _ => .timeoutAbort) 7777) 2 1000 .CLOSED
        initialRateLimiter 0 0 1 =
      (.error .timeoutError, rlAtt 3, 0, 2, [1000]) := by
  have h := claim_C6_retry_backoff (fun _ => .timeoutAbort) 7777 2 1000 .CLOSED 0 0
    (fun k => Or.inl rfl) (by decide) (by decide)
  rw [h]
  decide

/-! ## Claim C2: the LRU cache bound, eviction and touch behaviour -/

theorem JsMap.del_cons_self (p : String × α) (t : JsMap α)
    (h : ∀ q ∈ t, q.1 ≠ p.1) : JsMap.del (p :: t) p.1 = t := by
  simp only [JsMap.del, List.filter_cons]
  rw [if_neg (by simp)]
  exact List.filter_eq_self.mpr (fun q hq => by simpa using h q hq)

/-- A cache hit moves the touched entry to the most-recently-used (last)
position, removing it from wherever it sat. -/
theorem cacheTouch_eq (c : JsMap (Option LocationResult)) (ip : String)
    (v : Option LocationResult) (h : JsMap.getVal c ip = some v) :
    cacheTouch c ip = JsMap.del c ip ++ [(ip, v)] := by
  simp only [cacheTouch, h]
  exact JsMap.setVal_of_not_hasKey _ ip v (JsMap.hasKey_del_self c ip)

/-- An insertion of a fresh key into a full cache evicts exactly the first
(least-recently-touched) entry and appends the new one. -/
theorem addToCache_full_evicts (maxCacheSize : Nat) (c : JsMap (Option LocationResult))
    (ip : String) (v : Option LocationResult)
    (hfull : maxCacheSize ≤ c.length) (hpos : 0 < maxCacheSize)
    (hnodup : (c.map Prod.fst).Nodup) (hfresh : JsMap.hasKey c ip = false) :
    addToCache maxCacheSize c ip v = c.tail ++ [(ip, v)] := by
  rcases c with _ | ⟨p, t⟩
  · simp at hfull
    omega
  · have hkeys : ∀ q ∈ t, q.1 ≠ p.1 := by
      intro q hq
      simp only [List.map_cons, List.nodup_cons] at hnodup
      intro hcontra
      exact hnodup.1 (hcontra ▸ List.mem_map_of_mem Prod.fst hq)
    have hdel : JsMap.del (p :: t) p.1 = t := JsMap.del_cons_self p t hkeys
    have hfreshdel : JsMap.hasKey t ip = false := by
      rw [JsMap.hasKey_eq_false_iff] at hfresh ⊢
      exact fun q hq => hfresh q (List.mem_cons_of_mem p hq)
    simp only [addToCache, if_pos hfull, JsMap.firstKey?, List.head?_cons, Option.map_some']
    rw [hdel, JsMap.setVal_of_not_hasKey t ip v hfreshdel]
    rfl

/-- An insertion of a fresh key into a cache below capacity appends it. -/
theorem addToCache_not_full (maxCacheSize : Nat) (c : JsMap (Option LocationResult))
    (ip : String) (v : Option LocationResult)
    (hnf : c.length < maxCacheSize) (hfresh : JsMap.hasKey c ip = false) :
    addToCache maxCacheSize c ip v = c ++ [(ip, v)] := by
  simp only [addToCache, if_neg (by omega : ¬ (maxCacheSize ≤ c.length))]
  exact JsMap.setVal_of_not_hasKey c ip v hfresh

theorem length_addToCache_le (maxCacheSize : Nat) (c : JsMap (Option LocationResult))
    (ip : String) (v : Option LocationResult)
    (hpos : 0 < maxCacheSize) (hle : c.length ≤ maxCacheSize) :
    (addToCache maxCacheSize c ip v).length ≤ maxCacheSize := by
  by_cases hfull : maxCacheSize ≤ c.length
  · rcases c with _ | ⟨p, t⟩
    · simp at hfull
      omega
    · simp only [addToCache, if_pos hfull, JsMap.firstKey?, List.head?_cons, Option.map_some']
      have hdel : (JsMap.del (p :: t) p.1).length ≤ t.length := by
        simp only [JsMap.del, List.filter_cons]
        rw [if_neg (by simp)]
        exact List.length_filter_le _ t
      have := JsMap.length_setVal_le (JsMap.del (p :: t) p.1) ip v
      simp only [List.length_cons] at hle
      omega
  · have := JsMap.length_setVal_le c ip v
    simp only [addToCache, if_neg hfull]
    omega

theorem length_cacheTouch_le (c : JsMap (Option LocationResult)) (ip : String) :
    (cacheTouch c ip).length ≤ c.length := by
  rcases h : JsMap.getVal c ip with _ | v
  · simp [cacheTouch, h]
  · rw [cacheTouch_eq c ip v h]
    have := JsMap.length_del_lt_of_hasKey c ip (JsMap.hasKey_of_getVal_eq_some c ip v h)
    simp only [List.length_append, List.length_cons, List.length_nil]
    omega

/-- Any sequence of touches and insertions keeps the cache within its
capacity. -/
theorem length_foldl_cacheOps_le (maxCacheSize : Nat) (hpos : 0 < maxCacheSize) :
    ∀ (ops : List CacheOp) (c : JsMap (Option LocationResult)),
      c.length ≤ maxCacheSize →
      (ops.foldl (applyCacheOp maxCacheSize) c).length ≤ maxCacheSize := by
  intro ops
  induction ops with
  | nil => exact fun c h => h
  | cons op rest ih =>
    intro c hc
    simp only [List.foldl_cons]
    apply ih
    rcases op with ip | ⟨ip, v⟩
    · exact le_trans (length_cacheTouch_le c ip) hc
    · exact length_addToCache_le maxCacheSize c ip v hpos hc

/-- Inserting a duplicate-free list of fresh keys retains exactly the
most recently inserted maxCacheSize of them, in order. -/
theorem foldIns_keys (maxCacheSize : Nat) (hpos : 0 < maxCacheSize)
    (f : String → Option LocationResult) :
    ∀ (ips : List String) (c : JsMap (Option LocationResult)),
      (c.map Prod.fst ++ ips).Nodup → c.length ≤ maxCacheSize →
      ((ips.map (fun ip => CacheOp.insert ip (f ip))).foldl
          (applyCacheOp maxCacheSize) c).map Prod.fst =
        (c.map Prod.fst ++ ips).drop ((c.map Prod.fst ++ ips).length - maxCacheSize) := by
  intro ips
  induction ips with
  | nil =>
    intro c hnd hlen
    have h0 : List.length c - maxCacheSize = 0 := by omega
    simp [h0]
  | cons ip rest ih =>
    intro c hnd hlen
    have hfresh : JsMap.hasKey c ip = false := by
      rw [JsMap.hasKey_eq_false_iff]
      intro q hq hcontra
      have hipmem : ip ∈ c.map Prod.fst := hcontra ▸ List.mem_map_of_mem Prod.fst hq
      have := (List.nodup_append.mp hnd).2.2
      exact this hipmem (List.mem_cons_self ip rest)
    have hndc : (c.map Prod.fst).Nodup := (List.nodup_append.mp hnd).1
    simp only [List.map_cons, List.foldl_cons]
    by_cases hfull : maxCacheSize ≤ c.length
    · rcases hc : c with _ | ⟨p, t⟩
      · subst hc
        simp at hfull
        omega
      · subst hc
        have hev := addToCache_full_evicts maxCacheSize (p :: t) ip (f ip) hfull hpos hndc hfresh
        simp only [applyCacheOp, hev, List.tail_cons]
        have hnd' : ((t ++ [(ip, f ip)]).map Prod.fst ++ rest).Nodup := by
          simp only [List.map_append, List.map_cons, List.map_nil]
          have : (List.map Prod.fst t ++ [ip]) ++ rest =
              List.map Prod.fst t ++ (ip :: rest) := by
            simp [List.append_assoc]
          rw [this]
          have hshape : List.map Prod.fst (p :: t) ++ ip :: rest =
              p.1 :: (List.map Prod.fst t ++ ip :: rest) := by
            simp
          rw [hshape] at hnd
          exact hnd.of_cons
        have hlen' : (t ++ [(ip, f ip)]).length ≤ maxCacheSize := by
          simp only [List.length_append, List.length_cons, List.length_nil]
          simp only [List.length_cons] at hlen
          omega
        have := ih (t ++ [(ip, f ip)]) hnd' hlen'
        rw [this]
        have hkeys' : (t ++ [(ip, f ip)]).map Prod.fst ++ rest =
            List.map Prod.fst t ++ (ip :: rest) := by
          simp [List.append_assoc]
        rw [hkeys']
        have hshape2 : List.map Prod.fst (p :: t) ++ ip :: rest =
            p.1 :: (List.map Prod.fst t ++ ip :: rest) := by simp
        rw [hshape2]
        have hL : (p.1 :: (List.map Prod.fst t ++ ip :: rest)).length =
            (List.map Prod.fst t ++ ip :: rest).length + 1 := by simp
        rw [hL]
        have hidx : (List.map Prod.fst t ++ ip :: rest).length + 1 - maxCacheSize =
            ((List.map Prod.fst t ++ ip :: rest).length - maxCacheSize) + 1 := by
          simp only [List.length_append, List.length_map, List.length_cons]
          simp only [List.length_cons] at hfull
          omega
        rw [hidx, List.drop_succ_cons]
    · have hnf : c.length < maxCacheSize := by omega
      have hadd := addToCache_not_full maxCacheSize c ip (f ip) hnf hfresh
      simp only [applyCacheOp, hadd]
      have hnd' : ((c ++ [(ip, f ip)]).map Prod.fst ++ rest).Nodup := by
        simp only [List.map_append, List.map_cons, List.map_nil]
        have : (List.map Prod.fst c ++ [ip]) ++ rest =
            List.map Prod.fst c ++ (ip :: rest) := by simp [List.append_assoc]
        rw [this]
        exact hnd
      have hlen' : (c ++ [(ip, f ip)]).length ≤ maxCacheSize := by
        simp only [List.length_append, List.length_cons, List.length_nil]
        omega
      have := ih (c ++ [(ip, f ip)]) hnd' hlen'
      rw [this]
      have hkeys' : (c ++ [(ip, f ip)]).map Prod.fst ++ rest =
          List.map Prod.fst c ++ (ip :: rest) := by simp [List.append_assoc]
      rw [hkeys']

/-- Claim C2: over any sequence of cache touches and insertions starting
within capacity the cache size never exceeds maxCacheSize; inserting a
fresh key into a full cache evicts exactly one entry, the head of the
recency-ordered list (the least-recently-touched one); a cache hit moves
the touched entry to the most-recently-used (last) position; and inserting
N > maxCacheSize distinct IPs from an empty cache retains exactly the
maxCacheSize most recently inserted keys (the drop of the first
N − maxCacheSize). -/
theorem claim_C2_lru_cache :
    (∀ (maxCacheSize : Nat) (ops : List CacheOp) (c : JsMap (Option LocationResult)),
      0 < maxCacheSize → c.length ≤ maxCacheSize →
      (ops.foldl (applyCacheOp maxCacheSize) c).length ≤ maxCacheSize) ∧
    (∀ (maxCacheSize : Nat) (c : JsMap (Option LocationResult)) (ip : String)
        (v : Option LocationResult),
      0 < maxCacheSize → maxCacheSize ≤ c.length → (c.map Prod.fst).Nodup →
      JsMap.hasKey c ip = false →
      addToCache maxCacheSize c ip v = c.tail ++ [(ip, v)]) ∧
    (∀ (c : JsMap (Option LocationResult)) (ip : String) (v : Option LocationResult),
      JsMap.getVal c ip = some v →
      cacheTouch c ip = JsMap.del c ip ++ [(ip, v)]) ∧
    (∀ (maxCacheSize : Nat) (ips : List String) (f : String → Option LocationResult),
      0 < maxCacheSize → ips.Nodup →
      ((ips.map (fun ip => CacheOp.insert ip (f ip))).foldl
          (applyCacheOp maxCacheSize) []).map Prod.fst =
        ips.drop (ips.length - maxCacheSize)) := by
  refine ⟨?_, ?_, ?_, ?_⟩
  · exact fun maxCacheSize ops c hpos hle => length_foldl_cacheOps_le maxCacheSize hpos ops c hle
  · exact fun maxCacheSize c ip v hpos hfull hnd hfresh =>
      addToCache_full_evicts maxCacheSize c ip v hfull hpos hnd hfresh
  · exact fun c ip v h => cacheTouch_eq c ip v h
  · intro maxCacheSize ips f hpos hnd
    have := foldIns_keys maxCacheSize hpos f ips [] (by simpa using hnd) (by simp)
    simpa using this

/-- Witness for claim C2 at capacity 2: four operations keep the size at 2;
a full cache evicts its oldest entry a on inserting c; touching a moves it
to the end; inserting the three distinct keys a, b, c retains b and c. -/
theorem claim_C2_lru_cache_witness :
    (([CacheOp.insert "a" none, CacheOp.insert "b" none, CacheOp.insert "c" none,
        CacheOp.touch "b"].foldl (applyCacheOp 2) []).length ≤ 2) ∧
    addToCache 2 [("a", none), ("b", none)] "c" none = [("b", none), ("c", none)] ∧
    cacheTouch [("a", none), ("b", none)] "a" = [("b", none), ("a", none)] ∧
    (((["a", "b", "c"].map (fun ip => CacheOp.insert ip none)).foldl
        (applyCacheOp 2) []).map Prod.fst = ["b", "c"]) := by
  refine ⟨?_, ?_, ?_, ?_⟩
  · exact claim_C2_lru_cache.1 2 [CacheOp.insert "a" none, CacheOp.insert "b" none,
      CacheOp.insert "c" none, CacheOp.touch "b"] [] (by decide) (by decide)
  · have h := claim_C2_lru_cache.2.1 2 [("a", none), ("b", none)] "c" none
      (by decide) (by decide) (by decide) (by decide)
    rw [h]
    decide
  · have h := claim_C2_lru_cache.2.2.1 [("a", none), ("b", none)] "a" none (by decide)
    rw [h]
    decide
  · have h := claim_C2_lru_cache.2.2.2 2 ["a", "b", "c"] (fun _ => none)
      (by decide) (by decide)
    rw [h]
    decide


theorem coStep_arrive_join (st : CoState) (caller : Nat) (ip s : String) (now : Int)
    (pid : Nat)
    (hv : isValidInput ip = true) (hs : sanitizeIp ip = some s)
    (hc : JsMap.getVal st.cache s = none)
    (hpend : JsMap.getVal st.pending s = some pid) :
    (coStep st (.arrive caller ip now)).cache = st.cache ∧
    (coStep st (.arrive caller ip now)).pending = st.pending ∧
    (coStep st (.arrive caller ip now)).invocations = st.invocations ∧
    (coStep st (.arrive caller ip now)).outcomes =
      st.outcomes ++ [(caller, .joined pid)] ∧
    (coStep st (.arrive caller ip now)).nextId = st.nextId ∧
    (coStep st (.arrive caller ip now)).resolved = st.resolved ∧
    (coStep st (.arrive caller ip now)).circuitBreaker = st.circuitBreaker ∧
    (coStep st (.arrive caller ip now)).maxCacheSize = st.maxCacheSize := by
  simp [coStep, hv, hs, hc, hpend]

theorem coStep_arrive_create (st : CoState) (caller : Nat) (ip s : String) (now : Int)
    (hv : isValidInput ip = true) (hs : sanitizeIp ip = some s)
    (hc : JsMap.getVal st.cache s = none)
    (hpend : JsMap.getVal st.pending s = none)
    (hpriv : isPrivateIP s = false)
    (hcb : st.circuitBreaker.state = .CLOSED) :
    (coStep st (.arrive caller ip now)).cache = st.cache ∧
    (coStep st (.arrive caller ip now)).pending = JsMap.setVal st.pending s st.nextId ∧
    (coStep st (.arrive caller ip now)).invocations =
      st.invocations ++ [(s, st.nextId)] ∧
    (coStep st (.arrive caller ip now)).outcomes =
      st.outcomes ++ [(caller, .joined st.nextId)] ∧
    (coStep st (.arrive caller ip now)).nextId = st.nextId + 1 ∧
    (coStep st (.arrive caller ip now)).resolved = st.resolved ∧
    (coStep st (.arrive caller ip now)).circuitBreaker = st.circuitBreaker ∧
    (coStep st (.arrive caller ip now)).maxCacheSize = st.maxCacheSize := by
  have hgate : breakerAllow st.circuitBreaker now = (true, st.circuitBreaker) := by
    have : st.circuitBreaker.state ≠ .OPEN := by
      rw [hcb]; exact fun x => BreakerState.noConfusion x
    simp [breakerAllow, this]
  simp [coStep, hv, hs, hc, hpend, hpriv, hgate]

theorem coStep_settle (st : CoState) (s : String) (now : Int) (pid : Nat)
    (res : Except ApiError (Option LocationResult))
    (hpend : JsMap.getVal st.pending s = some pid) :
    (coStep st (.settle s res now)).cache =
      addToCache st.maxCacheSize st.cache s (deliveredOf res) ∧
    (coStep st (.settle s res now)).pending = JsMap.del st.pending s ∧
    (coStep st (.settle s res now)).invocations = st.invocations ∧
    (coStep st (.settle s res now)).outcomes = st.outcomes ∧
    (coStep st (.settle s res now)).resolved =
      st.resolved ++ [(pid, deliveredOf res)] := by
  rcases res with e | r
  · simp [coStep, hpend, deliveredOf]
  · simp [coStep, hpend, deliveredOf]

theorem coStep_arrive_cached (st : CoState) (caller : Nat) (ip s : String) (now : Int)
    (v : Option LocationResult)
    (hv : isValidInput ip = true) (hs : sanitizeIp ip = some s)
    (hc : JsMap.getVal st.cache s = some v) :
    (coStep st (.arrive caller ip now)).outcomes =
      st.outcomes ++ [(caller, .immediate v)] ∧
    (coStep st (.arrive caller ip now)).invocations = st.invocations ∧
    (coStep st (.arrive caller ip now)).pending = st.pending := by
  simp [coStep, hv, hs, hc]

theorem coFold_joins (ip s : String) (now : Int) (pid : Nat)
    (hv : isValidInput ip = true) (hs : sanitizeIp ip = some s) :
    ∀ (callers : List Nat) (st : CoState),
      JsMap.getVal st.cache s = none →
      JsMap.getVal st.pending s = some pid →
      ((callers.map (fun c => CoEvent.arrive c ip now)).foldl coStep st).cache = st.cache ∧
      ((callers.map (fun c => CoEvent.arrive c ip now)).foldl coStep st).pending = st.pending ∧
      ((callers.map (fun c => CoEvent.arrive c ip now)).foldl coStep st).invocations =
        st.invocations ∧
      ((callers.map (fun c => CoEvent.arrive c ip now)).foldl coStep st).outcomes =
        st.outcomes ++ callers.map (fun c => (c, ArriveOutcome.joined pid)) ∧
      ((callers.map (fun c => CoEvent.arrive c ip now)).foldl coStep st).nextId = st.nextId ∧
      ((callers.map (fun c => CoEvent.arrive c ip now)).foldl coStep st).resolved =
        st.resolved ∧
      ((callers.map (fun c => CoEvent.arrive c ip now)).foldl coStep st).maxCacheSize =
        st.maxCacheSize := by
  intro callers
  induction callers with
  | nil => intro st hc hpend; simp
  | cons c rest ih =>
    intro st hc hpend
    have hstep := coStep_arrive_join st c ip s now pid hv hs hc hpend
    simp only [List.map_cons, List.foldl_cons]
    have hc' : JsMap.getVal (coStep st (.arrive c ip now)).cache s = none := by
      rw [hstep.1]; exact hc
    have hpend' : JsMap.getVal (coStep st (.arrive c ip now)).pending s = some pid := by
      rw [hstep.2.1]; exact hpend
    have hrest := ih (coStep st (.arrive c ip now)) hc' hpend'
    refine ⟨?_, ?_, ?_, ?_, ?_, ?_, ?_⟩
    · rw [hrest.1, hstep.1]
    · rw [hrest.2.1, hstep.2.1]
    · rw [hrest.2.2.1, hstep.2.2.1]
    · rw [hrest.2.2.2.1, hstep.2.2.2.1]
      simp
    · rw [hrest.2.2.2.2.1, hstep.2.2.2.2.1]
    · rw [hrest.2.2.2.2.2.1, hstep.2.2.2.2.2.1]
    · rw [hrest.2.2.2.2.2.2, hstep.2.2.2.2.2.2.2]


/-- Claim C3: K concurrent lookups (1 ≤ K, arriving before the work
settles) of the same uncached, non-private IP perform exactly one upstream
pipeline invocation and all K callers join the same shared promise, hence
receive the same result; the settle step removes the pending placeholder
(and writes the cache) before any result is delivered, so its pending
entry is gone and a caller arriving after settlement is served the cached
value immediately instead of joining a stale placeholder, with no further
invocation. -/
theorem claim_C3_request_coalescing :
    ∀ (st0 st1 st2 st3 : CoState) (ip s : String) (now now2 now3 : Int) (K : Nat)
      (res : Except ApiError (Option LocationResult)),
      isValidInput ip = true → sanitizeIp ip = some s →
      JsMap.getVal st0.cache s = none → JsMap.getVal st0.pending s = none →
      isPrivateIP s = false → st0.circuitBreaker.state = .CLOSED → 0 < K →
      st1 = ((List.range K).map (fun i => CoEvent.arrive i ip now)).foldl coStep st0 →
      st2 = coStep st1 (.settle s res now2) →
      st3 = coStep st2 (.arrive K ip now3) →
      (st1.invocations = st0.invocations ++ [(s, st0.nextId)] ∧
       st1.outcomes = st0.outcomes ++
         (List.range K).map (fun i => (i, ArriveOutcome.joined st0.nextId)) ∧
       JsMap.getVal st2.pending s = none ∧
       st2.resolved = st0.resolved ++ [(st0.nextId, deliveredOf res)] ∧
       st2.invocations = st1.invocations ∧
       st3.outcomes = st2.outcomes ++ [(K, ArriveOutcome.immediate (deliveredOf res))] ∧
       st3.invocations = st2.invocations) := by
  intro st0 st1 st2 st3 ip s now now2 now3 K res hv hs hc hpend hpriv hcb hK h1 h2 h3
  obtain ⟨k, rfl⟩ : ∃ k, K = k + 1 := ⟨K - 1, by omega⟩
  have hcreate := coStep_arrive_create st0 0 ip s now hv hs hc hpend hpriv hcb
  set st0' := coStep st0 (.arrive 0 ip now) with hst0'
  have hlist : (List.range (k + 1)).map (fun i => CoEvent.arrive i ip now) =
      CoEvent.arrive 0 ip now ::
        ((List.range k).map Nat.succ).map (fun c => CoEvent.arrive c ip now) := by
    rw [List.range_succ_eq_map]
    simp [List.map_map]
  have hc0' : JsMap.getVal st0'.cache s = none := by rw [hcreate.1]; exact hc
  have hp0' : JsMap.getVal st0'.pending s = some st0.nextId := by
    rw [hcreate.2.1]; exact JsMap.getVal_setVal_self st0.pending s st0.nextId
  have hjoins := coFold_joins ip s now st0.nextId hv hs
    ((List.range k).map Nat.succ) st0' hc0' hp0'
  have hst1 : st1 = (((List.range k).map Nat.succ).map
      (fun c => CoEvent.arrive c ip now)).foldl coStep st0' := by
    rw [h1, hlist, List.foldl_cons]
  have hinv1 : st1.invocations = st0.invocations ++ [(s, st0.nextId)] := by
    rw [hst1, hjoins.2.2.1, hcreate.2.2.1]
  have hout1 : st1.outcomes = st0.outcomes ++
      (List.range (k + 1)).map (fun i => (i, ArriveOutcome.joined st0.nextId)) := by
    rw [hst1, hjoins.2.2.2.1, hcreate.2.2.2.1, List.range_succ_eq_map]
    simp [List.map_map]
  have hcache1 : st1.cache = st0.cache := by rw [hst1, hjoins.1, hcreate.1]
  have hpend1 : JsMap.getVal st1.pending s = some st0.nextId := by
    rw [hst1, hjoins.2.1]; exact hp0'
  have hres1 : st1.resolved = st0.resolved := by
    rw [hst1, hjoins.2.2.2.2.2.1, hcreate.2.2.2.2.2.1]
  have hsettle := coStep_settle st1 s now2 st0.nextId res hpend1
  have hpend2 : JsMap.getVal st2.pending s = none := by
    rw [h2, hsettle.2.1]; exact JsMap.getVal_del_self st1.pending s
  have hres2 : st2.resolved = st0.resolved ++ [(st0.nextId, deliveredOf res)] := by
    rw [h2, hsettle.2.2.2.2, hres1]
  have hinv2 : st2.invocations = st1.invocations := by rw [h2, hsettle.2.2.1]
  have hcache2 : JsMap.getVal st2.cache s = some (deliveredOf res) := by
    rw [h2, hsettle.1]
    exact getVal_addToCache_self st1.maxCacheSize st1.cache s (deliveredOf res)
  have harr := coStep_arrive_cached st2 (k + 1) ip s now3 (deliveredOf res) hv hs hcache2
  exact ⟨hinv1, hout1, hpend2, hres2, hinv2, by rw [h3, harr.1], by rw [h3, harr.2.1]⟩

/-- A fresh interleaving state with a CLOSED breaker. -/
def coClosed : CoState where
  cache := []
  maxCacheSize := 10000
  pending := []
  nextId := 0
  circuitBreaker := initialCircuitBreaker
  stats := initialGeoStats
  invocations := []
  outcomes := []
  resolved := []

/-- Three callers for 8.8.8.8 arrive before the work settles. -/
def coC1 : CoState :=
  ((List.range 3).map (fun i => CoEvent.arrive i "8.8.8.8" 10)).foldl coStep coClosed

/-- The shared work settles successfully. -/
def coC2 : CoState := coStep coC1 (.settle "8.8.8.8" (.ok (some locMV)) 20)

/-- A fourth caller arrives after settlement. -/
def coC3 : CoState := coStep coC2 (.arrive 3 "8.8.8.8" 30)

/-- Witness for claim C3 at three concrete concurrent callers: one
invocation, all three joined to promise 0, the placeholder gone and the
result resolved at settlement, and the post-settle caller served from the
cache with no further invocation. -/
theorem claim_C3_request_coalescing_witness :
    coC1.invocations = [("8.8.8.8", 0)] ∧
    coC1.outcomes = [(0, ArriveOutcome.joined 0), (1, ArriveOutcome.joined 0),
      (2, ArriveOutcome.joined 0)] ∧
    JsMap.getVal coC2.pending "8.8.8.8" = none ∧
    coC2.resolved = [(0, some locMV)] ∧
    coC2.invocations = coC1.invocations ∧
    coC3.outcomes = coC2.outcomes ++ [(3, ArriveOutcome.immediate (some locMV))] ∧
    coC3.invocations = coC2.invocations := by
  have h := claim_C3_request_coalescing coClosed coC1 coC2 coC3 "8.8.8.8" "8.8.8.8"
    10 20 30 3 (.ok (some locMV)) (by decide) (by decide) (by decide) (by decide)
    (by decide) (by decide) (by decide) rfl rfl rfl
  refine ⟨?_, ?_, h.2.2.1, ?_, h.2.2.2.2.1, ?_, h.2.2.2.2.2.2⟩
  · rw [h.1]
    decide
  · rw [h.2.1]
    decide
  · rw [h.2.2.2.1]
    decide
  · rw [h.2.2.2.2.2.1]
    decide

end GeoViz
